import Mathlib

/-!
Verification development for the semantic-analysis core of the MyceliumUI
scripting-language compiler (scope graph, symbol table, type resolver and
IR-type mapper of `src/semantic/symbol_table.cpp`).

The C++ code is shallowly embedded: `SymbolTable` becomes a Lean structure,
its member functions become pure functions from table to table, and the
mutation of a `Symbol` through a `shared_ptr` becomes an in-place update of
the unique scope entry holding that symbol (each symbol is stored in exactly
one scope's map, so value semantics coincide with the C++ aliasing).
Machine `int` scope ids are embedded as `Int` where `-1` is a sentinel and
as `Nat` where the C++ only ever holds a valid index.

`StructLayout` (with `calculate_layout`) and the `IRType` factory functions
are declared in `codegen/ir_command.hpp`, which is not part of the sources;
the definitions marked "Modelled from the spec" below follow the
specification's words for those parts.  `semantic/symbol_table.hpp` is in
the sources and declares `Scope::symbols` as a `std::unordered_map`, whose
iteration order is unspecified: the embedding keeps each map as a list of
key-value pairs standing for the map's current iteration order.  Every
keyed operation (find, assign-through-iterator) is order-independent; a
fresh insertion is appended, one admissible placement among many, and no
theorem below treats the enumeration order as guaranteed — the one claim
that depends on it (C3) is refuted by re-enumerating the same map content
in another admissible order.
-/

namespace Mycelium

/-! ### Generic association-list and indexed-list helpers

`std::unordered_map<std::string, T>` access patterns used by the C++ code:
`find` (lookup), `operator[] =` (insert or overwrite), and in-place value
mutation through an iterator.  The scope container `std::vector` is embedded
as a `List` with index access and in-place modification.  A map is embedded
as an association list whose order stands for the map's (unspecified)
iteration order; lookup and in-place modification are keyed and therefore
order-independent, and `alistInsert` appends a fresh key — one admissible
placement, never relied on as the order the C++ map would produce. -/

def alistFind {β : Type} : List (String × β) → String → Option β
  | [], _ => none
  | (k, v) :: rest, n => if k = n then some v else alistFind rest n

def alistInsert {β : Type} : List (String × β) → String → β → List (String × β)
  | [], n, v => [(n, v)]
  | (k, w) :: rest, n, v =>
    if k = n then (n, v) :: rest else (k, w) :: alistInsert rest n v

/-- Modify the (first) entry of key `n`, like mutating `map[n]` through an
iterator; entries of other keys are untouched. -/
def alistModify {β : Type} : List (String × β) → String → (β → β) → List (String × β)
  | [], _, _ => []
  | (k, v) :: rest, n, f =>
    if k = n then (k, f v) :: rest else (k, v) :: alistModify rest n f

def listModifyIdx {α : Type} : List α → Nat → (α → α) → List α
  | [], _, _ => []
  | a :: rest, 0, f => f a :: rest
  | a :: rest, Nat.succ i, f => a :: listModifyIdx rest i f

/-! ### IR type system

`IRType` variants from `codegen/ir_command.hpp` (header not in the sources).
Modelled from the spec: primitives `i8 i16 i32 i64 f32 f64 bool void`, the
untyped pointer `ptr`, `ptr_to(T)` and `struct(layout)` where the layout
carries a name, ordered fields (name, type, byte offset), a total size and
an alignment.  A layout is inlined into the constructor as a field list
plus size and alignment. -/

inductive IRType : Type where
  | i8 | i16 | i32 | i64
  | f32 | f64
  | bool_ | void_
  | ptr
  | ptrTo (t : IRType)
  | structT (name : String) (fields : List (String × IRType × Nat))
      (size : Nat) (alignment : Nat)

/-- Modelled from the spec: byte sizes of IR types used by the layout
computation (the concrete scenario of the spec pins `i32` and `f32` at four
bytes; pointers are 8 bytes; `void` is empty). -/
def sizeOfType : IRType → Nat
  | .i8 => 1
  | .i16 => 2
  | .i32 => 4
  | .i64 => 8
  | .f32 => 4
  | .f64 => 8
  | .bool_ => 1
  | .void_ => 0
  | .ptr => 8
  | .ptrTo _ => 8
  | .structT _ _ sz _ => sz

/-- Modelled from the spec: alignments of IR types (the concrete scenario of
the spec pins the `Player` aggregate built from `i32` and `f32` fields at
alignment four). -/
def alignOfType : IRType → Nat
  | .i8 => 1
  | .i16 => 2
  | .i32 => 4
  | .i64 => 8
  | .f32 => 4
  | .f64 => 8
  | .bool_ => 1
  | .void_ => 1
  | .ptr => 8
  | .ptrTo _ => 8
  | .structT _ _ _ al => al

/-- Smallest multiple of `a` that is `≥ n` (for `a > 0`). -/
def alignUp (n a : Nat) : Nat :=
  if a = 0 then n else (n + a - 1) / a * a

/-- Modelled from the spec: offset assignment of `StructLayout::calculate_layout`
— each field is placed at the smallest offset `≥` the previous field's end
that is a multiple of the field's alignment.  Returns the placed fields and
the end of the field region. -/
def layoutFieldsFrom (cur : Nat) : List (String × IRType) → List (String × IRType × Nat) × Nat
  | [] => ([], cur)
  | (n, t) :: rest =>
    let off := alignUp cur (alignOfType t)
    let r := layoutFieldsFrom (off + sizeOfType t) rest
    ((n, t, off) :: r.1, r.2)

/-- Modelled from the spec: the aggregate's alignment is the maximum field
alignment, with a minimum of one. -/
def maxAlign : List (String × IRType) → Nat
  | [] => 1
  | (_, t) :: rest => max (alignOfType t) (maxAlign rest)

/-- Modelled from the spec: `StructLayout::calculate_layout` — place the
fields in order, compute the aggregate alignment, and round the size of the
field region up to that alignment. -/
def calculate_layout (flds : List (String × IRType)) :
    List (String × IRType × Nat) × Nat × Nat :=
  let placed := layoutFieldsFrom 0 flds
  let al := maxAlign flds
  (placed.1, alignUp placed.2 al, al)

/-- End of the field region of a list of placed fields, starting from `cur`. -/
def fieldsEnd : Nat → List (String × IRType × Nat) → Nat
  | cur, [] => cur
  | _, (_, t, off) :: rest => fieldsEnd (off + sizeOfType t) rest

/-- The spec's layout invariant on placed fields: starting from previous end
`cur`, every field offset is the least value `≥ cur` that is a multiple of
the field's alignment, and the next field starts from this field's end. -/
def offsetsWellFormed : Nat → List (String × IRType × Nat) → Prop
  | _, [] => True
  | cur, (_, t, off) :: rest =>
    (alignOfType t ∣ off ∧ cur ≤ off ∧
      (∀ m, alignOfType t ∣ m → cur ≤ m → off ≤ m)) ∧
    offsetsWellFormed (off + sizeOfType t) rest

/-! ### AST expressions

The expression shapes of `ast/ast.hpp` that the symbol table inspects
(through RTTI `as<>` casts); each C++ node class becomes a constructor.
Operator and literal-kind enums carry the members the `switch` statements
name plus representatives of their `default` arms. -/

inductive LiteralKind : Type where
  | Integer | Boolean | StrLit | Float | Null
  deriving DecidableEq, Repr

inductive BinaryOperatorKind : Type where
  | LessThan | LessThanOrEqual | GreaterThan | GreaterThanOrEqual
  | Equals | NotEquals | LogicalAnd | LogicalOr
  | Add | Subtract | Multiply | Divide | Modulo
  deriving DecidableEq, Repr

inductive UnaryOperatorKind : Type where
  | Not | Minus | Plus | PostIncrement | PostDecrement
  deriving DecidableEq, Repr

inductive Expr : Type where
  | literal (kind : LiteralKind)
  | binary (op : BinaryOperatorKind) (left right : Expr)
  | unary (op : UnaryOperatorKind) (operand : Expr)
  | identifier (name : String)
  | call (target : Expr) (args : List Expr)
  | assignment (target source : Expr)
  /-- `new T(...)`: the optional type-name identifier and the optional
  constructor-call argument list. -/
  | newExpr (typeName : Option String) (ctorArgs : Option (List Expr))
  | memberAccess (target : Expr) (member : String)
  | thisExpr

mutual

/-- `SymbolTable::extract_dependencies`: names an initializer references. -/
def extract_dependencies : Expr → List String
  | .identifier n => [n]
  | .binary _ l r => extract_dependencies l ++ extract_dependencies r
  | .unary _ o => extract_dependencies o
  | .call target args =>
    (match target with
      | .identifier f => [f]
      | .memberAccess tgt _ => extract_dependencies tgt
      | _ => []) ++ extract_dependencies_list args
  | .assignment _ src => extract_dependencies src
  | .newExpr tn ctorArgs =>
    (match tn with | some n => [n] | none => []) ++
    (match ctorArgs with
      | some args => extract_dependencies_list args
      | none => [])
  | .memberAccess tgt _ => extract_dependencies tgt
  | _ => []

def extract_dependencies_list : List Expr → List String
  | [] => []
  | e :: rest => extract_dependencies e ++ extract_dependencies_list rest

end

/-! ### Symbol records and scopes -/

inductive SymbolType : Type where
  | VARIABLE | FUNCTION | CLASS | PARAMETER | ENUM
  deriving DecidableEq, Repr

inductive TypeResolutionState : Type where
  | UNRESOLVED | RESOLVING | RESOLVED
  deriving DecidableEq, Repr

/-- One named entity; `Symbol` of `semantic/symbol_table.hpp`.
`initializer_expression` is embedded as `init_expr` (an optional AST
expression, non-owning in the C++; the header defaults it to null,
`resolution_state` to `UNRESOLVED` and `dependencies` to empty), and
`declaring_scope_id` is the header's `scope_level` member, named as the
spec names it. -/
structure Symbol : Type where
  name : String
  type : SymbolType
  data_type : IRType
  type_name : String
  declaring_scope_id : Int
  resolution_state : TypeResolutionState
  init_expr : Option Expr
  dependencies : List String

/-- One lexical scope; `Scope` of `semantic/symbol_table.hpp`.  `symbols`
is a `std::unordered_map` there; the list here stands for the map's current
iteration order, which the source leaves unspecified — no theorem below
assumes it coincides with declaration order. -/
structure Scope : Type where
  scope_name : String
  parent_scope_id : Int
  symbols : List (String × Symbol)

/-- The scope graph; `SymbolTable` of `semantic/symbol_table.hpp`. -/
structure SymbolTable : Type where
  all_scopes : List Scope
  scope_name_to_id : List (String × Nat)
  active_scope_stack : List Nat
  building_scope_level : Nat
  next_scope_id : Nat

/-- `SymbolTable::SymbolTable()`: global scope `0`, navigation stack `[0]`,
build cursor at the global scope. -/
def mkSymbolTable : SymbolTable :=
  { all_scopes := [{ scope_name := "global", parent_scope_id := -1, symbols := [] }]
    scope_name_to_id := [("global", 0)]
    active_scope_stack := [0]
    building_scope_level := 0
    next_scope_id := 1 }

def getScope (st : SymbolTable) (i : Nat) : Option Scope :=
  st.all_scopes.get? i

/-- The symbol stored under `n` in scope `i` (how every C++ access path
`all_scopes[i].symbols.find(n)` reads a symbol). -/
def getSymbol (st : SymbolTable) (i : Nat) (n : String) : Option Symbol :=
  match getScope st i with
  | some sc => alistFind sc.symbols n
  | none => none

/-- In-place mutation of the symbol stored under `n` in scope `i` (the
effect of writing through the `shared_ptr<Symbol>` held in that map). -/
def updateSymbol (st : SymbolTable) (i : Nat) (n : String) (f : Symbol → Symbol) :
    SymbolTable :=
  { st with all_scopes :=
      (listModifyIdx st.all_scopes i
        (fun sc => { sc with symbols := alistModify sc.symbols n f })) }

def insertSymbol (st : SymbolTable) (i : Nat) (sym : Symbol) : SymbolTable :=
  { st with all_scopes :=
      (listModifyIdx st.all_scopes i
        (fun sc => { sc with symbols := alistInsert sc.symbols sym.name sym })) }

/-! ### Building phase API -/

/-- `SymbolTable::enter_named_scope`: append a scope whose parent is the
build cursor, register its name in the global name index (overwriting any
existing mapping), and move the cursor to it. -/
def enter_named_scope (st : SymbolTable) (scope_name : String) : SymbolTable :=
  { st with
    all_scopes := st.all_scopes ++
      [{ scope_name := scope_name
         parent_scope_id := Int.ofNat st.building_scope_level
         symbols := [] }]
    scope_name_to_id := alistInsert st.scope_name_to_id scope_name st.next_scope_id
    building_scope_level := st.next_scope_id
    next_scope_id := st.next_scope_id + 1 }

/-- `SymbolTable::enter_scope`: an anonymous scope named `scope_<n>`. -/
def enter_scope (st : SymbolTable) : SymbolTable :=
  enter_named_scope st ("scope_" ++ toString st.next_scope_id)

/-- `SymbolTable::exit_scope`: move the cursor to the parent; no-op at the
global scope.  (In every reachable state a non-root scope's parent id is
nonnegative, so `Int.toNat` is exact.) -/
def exit_scope (st : SymbolTable) : SymbolTable :=
  if st.building_scope_level > 0 then
    match getScope st st.building_scope_level with
    | some sc => { st with building_scope_level := sc.parent_scope_id.toNat }
    | none => st
  else st

/-! ### Navigation API -/

def push_scope_name (st : SymbolTable) (scope_name : String) : Int × SymbolTable :=
  match alistFind st.scope_name_to_id scope_name with
  | some i => (Int.ofNat i, { st with active_scope_stack := st.active_scope_stack ++ [i] })
  | none => (-1, st)

def push_scope_id (st : SymbolTable) (scope_id : Int) : Int × SymbolTable :=
  if 0 ≤ scope_id ∧ scope_id < Int.ofNat st.all_scopes.length then
    (scope_id, { st with active_scope_stack := st.active_scope_stack ++ [scope_id.toNat] })
  else (-1, st)

def pop_scope (st : SymbolTable) : SymbolTable :=
  if st.active_scope_stack.length > 1 then
    { st with active_scope_stack := st.active_scope_stack.dropLast }
  else st

def reset_navigation (st : SymbolTable) : SymbolTable :=
  { st with active_scope_stack := [0] }

/-! ### Query API -/

/-- `SymbolTable::find_scope_by_name`: consult the global name index;
`-1` when absent. -/
def find_scope_by_name (st : SymbolTable) (scope_name : String) : Int :=
  match alistFind st.scope_name_to_id scope_name with
  | some i => Int.ofNat i
  | none => -1

/-- Prefix of the character list before its first occurrence of `"::"`,
or `none` when the separator does not occur
(`scope_name.find("::")` / `substr(0, pos)` in the C++). -/
def beforeSep : List Char → Option (List Char)
  | [] => none
  | ':' :: ':' :: _ => some []
  | c :: rest =>
    match beforeSep (rest) with
    | some pre => some (c :: pre)
    | none => none

def lookup_symbol_in_scope (st : SymbolTable) (scope_id : Int) (name : String) :
    Option Symbol :=
  if scope_id < 0 then none
  else getSymbol st scope_id.toNat name

/-- The member-function fallback step of `SymbolTable::lookup_symbol`: when
the current scope's name contains `"::"`, consult the owner type's scope
directly and return its symbol only when it is a `VARIABLE`. -/
def memberFallback (st : SymbolTable) (scopeName name : String) : Option Symbol :=
  match beforeSep scopeName.data with
  | none => none
  | some pre =>
    let type_scope_id := find_scope_by_name st (String.mk pre)
    if type_scope_id = -1 then none
    else
      match lookup_symbol_in_scope st type_scope_id name with
      | some s => if s.type = .VARIABLE then some s else none
      | none => none

/-- The stack walk of `SymbolTable::lookup_symbol`, from the top of the
navigation stack down (the argument list is the stack reversed); the
member-function fallback runs only at the top entry. -/
def lookupWalk (st : SymbolTable) (name : String) : Bool → List Nat → Option Symbol
  | _, [] => none
  | isTop, sid :: rest =>
    match getScope st sid with
    | none => lookupWalk st name false rest
    | some sc =>
      match alistFind sc.symbols name with
      | some s => some s
      | none =>
        match (if isTop then memberFallback st sc.scope_name name else none) with
        | some s => some s
        | none => lookupWalk st name false rest

/-- `SymbolTable::lookup_symbol`. -/
def lookup_symbol (st : SymbolTable) (name : String) : Option Symbol :=
  lookupWalk st name true st.active_scope_stack.reverse

/-- `SymbolTable::lookup_symbol_current_scope`: top of the navigation
stack only. -/
def lookup_symbol_current_scope (st : SymbolTable) (name : String) : Option Symbol :=
  match st.active_scope_stack.getLast? with
  | some cur => getSymbol st cur name
  | none => none

def symbol_exists_current_scope (st : SymbolTable) (name : String) : Bool :=
  (lookup_symbol_current_scope st name).isSome

/-- `SymbolTable::get_all_symbols_in_scope`: the symbols of a scope in the
map's iteration order — unspecified in the source (`std::unordered_map`). -/
def get_all_symbols_in_scope (st : SymbolTable) (scope_id : Int) : List Symbol :=
  if scope_id < 0 then []
  else
    match getScope st scope_id.toNat with
    | some sc => sc.symbols.map (fun kv => kv.2)
    | none => []

/-- `SymbolTable::lookup_symbol_in_context`: search from `context_scope_id`
up the parent chain.  The C++ `while` loop terminates because in every
reachable graph a scope's parent id is strictly smaller than its own id;
the walk therefore visits at most `all_scopes.length` scopes, which bounds
the recursion here. -/
def lookupCtxWalk (st : SymbolTable) (name : String) : Nat → Int → Option Symbol
  | 0, _ => none
  | Nat.succ fuel, cur =>
    if 0 ≤ cur ∧ cur < Int.ofNat st.all_scopes.length then
      match getSymbol st cur.toNat name with
      | some s => some s
      | none =>
        match getScope st cur.toNat with
        | some sc => lookupCtxWalk st name fuel sc.parent_scope_id
        | none => none
    else none

def lookup_symbol_in_context (st : SymbolTable) (name : String)
    (context_scope_id : Int) : Option Symbol :=
  lookupCtxWalk st name st.all_scopes.length context_scope_id

/-! ### Declaration API -/

/-- `SymbolTable::declare_symbol`.  The duplicate check is
`symbol_exists_current_scope`, which consults the top of the navigation
stack; the insertion itself goes to the build-cursor scope. -/
def declare_symbol (st : SymbolTable) (name : String) (ty : SymbolType)
    (data_type : IRType) (type_name : String) : Bool × SymbolTable :=
  if symbol_exists_current_scope st name then (false, st)
  else
    (true, insertSymbol st st.building_scope_level
      { name := name
        type := ty
        data_type := data_type
        type_name := type_name
        declaring_scope_id := Int.ofNat st.building_scope_level
        resolution_state := .RESOLVED
        init_expr := none
        dependencies := [] })

/-- `SymbolTable::declare_unresolved_symbol`: placeholder type `i32`,
type name `"unresolved"`, state `UNRESOLVED`; dependencies are extracted
from the initializer when one is present (the `Symbol` constructor of
`semantic/symbol_table.hpp` leaves the `dependencies` vector
default-empty otherwise). -/
def declare_unresolved_symbol (st : SymbolTable) (name : String) (ty : SymbolType)
    (init : Option Expr) : Bool × SymbolTable :=
  if symbol_exists_current_scope st name then (false, st)
  else
    (true, insertSymbol st st.building_scope_level
      { name := name
        type := ty
        data_type := .i32
        type_name := "unresolved"
        declaring_scope_id := Int.ofNat st.building_scope_level
        resolution_state := .UNRESOLVED
        init_expr := init
        dependencies :=
          match init with
          | some e => extract_dependencies e
          | none => [] })

/-! ### IR type mapper: `SymbolTable::string_to_ir_type` -/

/-- The last two characters of a string (`substr(length - 2)`; the C++
evaluates it only after checking `length > 2`). -/
def lastTwo (s : String) : String :=
  String.mk (s.data.drop (s.data.length - 2))

/-- The array-suffix test of `string_to_ir_type`:
`type_str.length() > 2 && type_str.substr(type_str.length() - 2) == "[]"`. -/
def isArrayName (s : String) : Prop :=
  2 < s.length ∧ lastTwo s = "[]"

instance (s : String) : Decidable (isArrayName s) :=
  inferInstanceAs (Decidable (_ ∧ _))

/-- The primitive spelling chain of `string_to_ir_type`, in the order the
C++ tests them; `"string"` maps to `ptr`. -/
def primNameType (s : String) : Option IRType :=
  if s = "i32" then some .i32
  else if s = "i64" then some .i64
  else if s = "i8" then some .i8
  else if s = "i16" then some .i16
  else if s = "bool" then some .bool_
  else if s = "f32" then some .f32
  else if s = "f64" then some .f64
  else if s = "void" then some .void_
  else if s = "ptr" then some .ptr
  else if s = "string" then some .ptr
  else none

/-- The variable symbols of a scope, as (name, type) layout fields — the
field-collection loop of the `CLASS` branch of `string_to_ir_type`. -/
def varFieldsOf (st : SymbolTable) (scope_id : Int) : List (String × IRType) :=
  ((get_all_symbols_in_scope st scope_id).filter
    (fun s => decide (s.type = SymbolType.VARIABLE))).map
    (fun s => (s.name, s.data_type))

/-- The `CLASS` branch of `string_to_ir_type`: locate the scope of the same
name, materialize a layout from its variable symbols, and build the struct
type; fall back to `ptr` when no scope of that name exists. -/
def classStructType (st : SymbolTable) (type_str : String) : IRType :=
  let struct_scope_id := find_scope_by_name st type_str
  if struct_scope_id = -1 then .ptr
  else
    let r := calculate_layout (varFieldsOf st struct_scope_id)
    .structT type_str r.1 r.2.1 r.2.2

/-- `SymbolTable::string_to_ir_type`.  The C++ throw on an unknown type is
embedded as `Except.error`. -/
def string_to_ir_type (st : SymbolTable) (type_str : String) : Except String IRType :=
  if isArrayName type_str then .ok .ptr
  else
    match primNameType type_str with
    | some t => .ok t
    | none =>
      match lookup_symbol st type_str with
      | some sym =>
        match sym.type with
        | .CLASS => .ok (classStructType st type_str)
        | .ENUM => .ok .i32
        | _ => .error ("Unknown type: " ++ type_str)
      | none => .error ("Unknown type: " ++ type_str)

/-! ### Type inference: `SymbolTable::infer_type_from_expression_in_context` -/

def infer_type_from_expression_in_context (st : SymbolTable) :
    Expr → Int → String
  | .literal k, _ =>
    (match k with
      | .Integer => "i32"
      | .Boolean => "bool"
      | .StrLit => "string"
      | .Float => "f32"
      | _ => "unresolved")
  | .binary op l r, ctx =>
    (match op with
      | .LessThan | .LessThanOrEqual | .GreaterThan | .GreaterThanOrEqual
      | .Equals | .NotEquals | .LogicalAnd | .LogicalOr => "bool"
      | _ =>
        let left_type := infer_type_from_expression_in_context st l ctx
        if left_type ≠ "unresolved" then left_type
        else
          let right_type := infer_type_from_expression_in_context st r ctx
          if right_type ≠ "unresolved" then right_type
          else "unresolved")
  | .unary op o, ctx =>
    (match op with
      | .Not => "bool"
      | .Minus | .Plus => infer_type_from_expression_in_context st o ctx
      | _ => "unresolved")
  | .identifier n, ctx =>
    (match lookup_symbol_in_context st n ctx with
      | some sym =>
        if sym.resolution_state = .RESOLVED then sym.type_name else "unresolved"
      | none => "unresolved")
  | .call (.identifier func_name) _, ctx =>
    (match lookup_symbol_in_context st func_name ctx with
      | some sym =>
        if sym.type = .FUNCTION ∧ sym.resolution_state = .RESOLVED then
          sym.type_name
        else "unresolved"
      | none => "unresolved")
  | .call (.memberAccess tgt method_name) _, ctx =>
    let target_type := infer_type_from_expression_in_context st tgt ctx
    if target_type ≠ "unresolved" then
      let type_scope_id := find_scope_by_name st target_type
      if type_scope_id ≠ -1 then
        match lookup_symbol_in_scope st type_scope_id method_name with
        | some m =>
          if m.type = .FUNCTION ∧ m.resolution_state = .RESOLVED then
            m.type_name
          else "unresolved"
        | none => "unresolved"
      else "unresolved"
    else "unresolved"
  | .call _ _, _ => "unresolved"
  | .assignment _ src, ctx => infer_type_from_expression_in_context st src ctx
  | .newExpr tn _, ctx =>
    (match tn with
      | some type_name =>
        (match lookup_symbol_in_context st type_name ctx with
          | some sym =>
            if sym.type = .CLASS ∨ sym.type = .ENUM then type_name
            else "unresolved"
          | none => "unresolved")
      | none => "unresolved")
  | .memberAccess tgt field_name, ctx =>
    let target_type := infer_type_from_expression_in_context st tgt ctx
    if target_type = "unresolved" then "unresolved"
    else
      let struct_scope_id := find_scope_by_name st target_type
      if struct_scope_id = -1 then "unresolved"
      else
        match lookup_symbol_in_scope st struct_scope_id field_name with
        | some f =>
          if f.resolution_state = .RESOLVED then f.type_name else "unresolved"
        | none => "unresolved"
  | .thisExpr, _ => "unresolved"

/-! ### Type resolution: `SymbolTable::resolve_symbol_type` and
`SymbolTable::resolve_all_types`

`resolve_symbol_type` first locates its symbol by scanning all scopes in id
order and taking the first scope containing the name.  The C++ recursion
through dependencies terminates because every recursive entry marks a fresh
symbol `RESOLVING` before recursing and an already-`RESOLVING` symbol
returns immediately, so the depth is bounded by the number of symbols; an
explicit fuel argument (instantiated with `totalFuel`, one more than the
symbol count) bounds the recursion here. -/

def scanScopes (name : String) : Nat → List Scope → Option (Nat × Symbol)
  | _, [] => none
  | i, sc :: rest =>
    match alistFind sc.symbols name with
    | some s => some (i, s)
    | none => scanScopes name (i + 1) rest

/-- The symbol-locating loop at the head of `resolve_symbol_type`: the first
scope (in id order) holding a symbol of the given name. -/
def findSymbolScan (st : SymbolTable) (name : String) : Option (Nat × Symbol) :=
  scanScopes name 0 st.all_scopes

def setState (r : TypeResolutionState) (s : Symbol) : Symbol :=
  { s with resolution_state := r }

/-- `SymbolTable::resolve_symbol_type_in_context`: the C++ body ignores the
context and simply calls the main resolve method (`recur`). -/
def resolve_symbol_type_in_context
    (recur : SymbolTable → String → Bool × SymbolTable)
    (st : SymbolTable) (name : String) (_context_scope_id : Int) :
    Bool × SymbolTable :=
  recur st name

/-- The dependency loop of `resolve_symbol_type`: resolve each dependency
via `resolve_symbol_type_in_context`, stopping at the first failure. -/
def resolveDeps (recur : SymbolTable → String → Bool × SymbolTable) (ctx : Int) :
    SymbolTable → List String → Bool × SymbolTable
  | st, [] => (true, st)
  | st, d :: rest =>
    match resolve_symbol_type_in_context recur st d ctx with
    | (true, st') => resolveDeps recur ctx st' rest
    | (false, st') => (false, st')

/-- The success tail of `resolve_symbol_type` once the inferred type spelling
is known: when it is `"unresolved"` the symbol goes back to `UNRESOLVED`;
otherwise the spelling is mapped through `string_to_ir_type` — on success
the symbol's type fields are set and it is marked `RESOLVED`, and the C++
`catch` of the unknown-type throw also marks it back `UNRESOLVED`. -/
def finishInfer (st : SymbolTable) (sid : Nat) (name : String)
    (inferred : String) : Bool × SymbolTable :=
  if inferred = "unresolved" then
    (false, updateSymbol st sid name (setState .UNRESOLVED))
  else
    match string_to_ir_type st inferred with
    | .ok dt =>
      (true, updateSymbol st sid name (fun s =>
        { s with data_type := dt, type_name := inferred,
                 resolution_state := .RESOLVED }))
    | .error _ =>
      (false, updateSymbol st sid name (setState .UNRESOLVED))

/-- The tail of `resolve_symbol_type` after the dependency loop succeeded:
infer a type from the initializer that was read through the symbol's
(never-mutated) `initializer_expression` field; a symbol without an
initializer goes back to `UNRESOLVED` with failure. -/
def finishResolve (st : SymbolTable) (sid : Nat) (name : String) (sym : Symbol) :
    Bool × SymbolTable :=
  match sym.init_expr with
  | some init =>
    finishInfer st sid name
      (infer_type_from_expression_in_context st init (Int.ofNat sid))
  | none => (false, updateSymbol st sid name (setState .UNRESOLVED))

/-- Join point after the dependency loop of `resolve_symbol_type`: failure
marks the symbol back `UNRESOLVED` and propagates failure. -/
def resolveAfterDeps (sid : Nat) (name : String) (sym : Symbol) :
    Bool × SymbolTable → Bool × SymbolTable
  | (true, st2) => finishResolve st2 sid name sym
  | (false, st2) => (false, updateSymbol st2 sid name (setState .UNRESOLVED))

/-- The body of `resolve_symbol_type` once the symbol has been located:
already-`RESOLVED` succeeds, re-entering a `RESOLVING` symbol fails without
a state change (the cycle report), otherwise mark `RESOLVING`, run the
dependency loop, and finish. -/
def resolveFound (recur : SymbolTable → String → Bool × SymbolTable)
    (st : SymbolTable) (name : String) (sid : Nat) (sym : Symbol) :
    Bool × SymbolTable :=
  if sym.resolution_state = .RESOLVED then (true, st)
  else if sym.resolution_state = .RESOLVING then (false, st)
  else
    resolveAfterDeps sid name sym
      (resolveDeps recur (Int.ofNat sid)
        (updateSymbol st sid name (setState .RESOLVING)) sym.dependencies)

/-- `SymbolTable::resolve_symbol_type`. -/
def resolve_symbol_type : Nat → SymbolTable → String → Bool × SymbolTable
  | 0, st, _ => (false, st)
  | Nat.succ fuel, st, name =>
    match findSymbolScan st name with
    | none => (false, st)
    | some (sid, sym) => resolveFound (resolve_symbol_type fuel) st name sid sym

def totalFuel (st : SymbolTable) : Nat :=
  (st.all_scopes.map (fun sc => sc.symbols.length)).sum + 1

/-- The `(scope, name)` iteration domain of one pass of
`resolve_all_types` (the containers are never resized during resolution,
so the snapshot equals the live iteration of the C++ range-for). -/
def symbolKeys (st : SymbolTable) : List (Nat × String) :=
  st.all_scopes.enum.flatMap (fun isc => isc.2.symbols.map (fun kv => (isc.1, kv.1)))

/-- Progress-flag accumulation of the pass loop:
`if (resolve_symbol_type(name)) progress = true;`. -/
def passJoin (progress : Bool) : Bool × SymbolTable → Bool × SymbolTable
  | (b, st) => (progress || b, st)

/-- One body step of the pass: attempt resolution when the (live) state of
the visited symbol is `UNRESOLVED`; record progress on success. -/
def resolvePassStep (acc : Bool × SymbolTable) (key : Nat × String) :
    Bool × SymbolTable :=
  match getSymbol acc.2 key.1 key.2 with
  | some sym =>
    if sym.resolution_state = .UNRESOLVED then
      passJoin acc.1 (resolve_symbol_type (totalFuel acc.2) acc.2 key.2)
    else acc
  | none => acc

/-- One iteration of the `while` loop of `resolve_all_types`. -/
def resolvePass (st : SymbolTable) : Bool × SymbolTable :=
  (symbolKeys st).foldl resolvePassStep (false, st)

/-- The `while (progress && iteration < max_iterations)` loop, with
`rem = max_iterations - iteration` as the structural measure; returns the
final value of `iteration` (the number of passes executed) and the table. -/
def resolveLoop : Nat → SymbolTable → Nat × SymbolTable
  | 0, st => (10, st)
  | Nat.succ rem, st =>
    match resolvePass st with
    | (true, st') => resolveLoop rem st'
    | (false, st') => (10 - rem, st')

/-- `no symbol remains UNRESOLVED` — the final check of
`resolve_all_types`. -/
def noUnresolvedB (st : SymbolTable) : Bool :=
  st.all_scopes.all (fun sc =>
    sc.symbols.all (fun kv => decide (kv.2.resolution_state ≠ .UNRESOLVED)))

/-- The two final checks of `resolve_all_types`: failure when the iteration
bound was consumed, otherwise report whether every symbol is resolved. -/
def finalReport : Nat × SymbolTable → Bool × SymbolTable
  | (iteration, st') =>
    if 10 ≤ iteration then (false, st') else (noUnresolvedB st', st')

/-- `SymbolTable::resolve_all_types`: run up to ten passes, then report. -/
def resolve_all_types (st : SymbolTable) : Bool × SymbolTable :=
  finalReport (resolveLoop 10 st)

/-! ### Observation helpers used by the theorems -/

def stateAt (st : SymbolTable) (i : Nat) (n : String) :
    Option TypeResolutionState :=
  (getSymbol st i n).map (fun s => s.resolution_state)

/-- The symbol stored under `n` in scope `i` is currently marked
`RESOLVING`. -/
def ResolvingAt (st : SymbolTable) (i : Nat) (n : String) : Prop :=
  ∃ s, getSymbol st i n = some s ∧ s.resolution_state = .RESOLVING

/-- A symbol with no initializer that is not resolved: the configuration of
claim C10. -/
def NullInitStuck (st : SymbolTable) (i : Nat) (n : String) : Prop :=
  ∃ s, getSymbol st i n = some s ∧ s.init_expr = none ∧
    s.resolution_state ≠ .RESOLVED

/-- No symbol anywhere is marked `RESOLVING` (true of every graph the build
API can produce; resolution always restores `RESOLVED`/`UNRESOLVED` before
returning). -/
def noResolvingB (st : SymbolTable) : Bool :=
  st.all_scopes.all (fun sc =>
    sc.symbols.all (fun kv => decide (kv.2.resolution_state ≠ .RESOLVING)))

/-! ### Concrete scenario tables

Each table is produced through the build API exactly as the AST builder of
`symbol_table.cpp` would drive it for the little programs named in the
spec's scenarios. -/

/-- `class Player { i32 b; f32 x; }` (spec scenario 4). -/
def tPlayer : SymbolTable :=
  exit_scope
    ((declare_symbol
      ((declare_symbol
        (enter_named_scope
          ((declare_symbol mkSymbolTable "Player" .CLASS .ptr "type").2)
          "Player")
        "b" .VARIABLE .i32 "i32").2)
      "x" .VARIABLE .f32 "f32").2)

/-- The symbol record the builder creates for the class `Player`. -/
def playerSym : Symbol :=
  { name := "Player", type := .CLASS, data_type := .ptr, type_name := "type"
    declaring_scope_id := 0, resolution_state := .RESOLVED
    init_expr := none, dependencies := [] }

/-- The `Player` graph of `tPlayer` with the class scope's symbol map
enumerated in the other admissible iteration order (`x` before `b`).
`std::unordered_map` leaves the iteration order unspecified, so this list
and the one in `tPlayer` stand for the same map content. -/
def tPlayerPerm : SymbolTable :=
  { tPlayer with all_scopes :=
      (listModifyIdx tPlayer.all_scopes 1
        (fun sc => { sc with symbols := sc.symbols.reverse })) }

/-- `class Player { i32 b; i32 GetX() {} }`, built, with the navigation
stack pushed to `[0, Player, Player::GetX]` (spec scenario 5). -/
def tGetX : SymbolTable :=
  (push_scope_name
    ((push_scope_name
      (exit_scope
        (exit_scope
          (enter_named_scope
            ((declare_symbol
              ((declare_symbol
                (enter_named_scope
                  ((declare_symbol mkSymbolTable "Player" .CLASS .ptr "type").2)
                  "Player")
                "b" .VARIABLE .i32 "i32").2)
              "GetX" .FUNCTION .i32 "i32").2)
            "Player::GetX")))
      "Player").2)
    "Player::GetX").2

/-- The symbol record of the field `b` of `Player` in `tGetX`. -/
def bFieldSym : Symbol :=
  { name := "b", type := .VARIABLE, data_type := .i32, type_name := "i32"
    declaring_scope_id := 1, resolution_state := .RESOLVED
    init_expr := none, dependencies := [] }

/-- `var a = b; var b = a;` at global scope (spec scenario 3). -/
def tCyc : SymbolTable :=
  (declare_unresolved_symbol
    ((declare_unresolved_symbol mkSymbolTable "a" .VARIABLE
      (some (.identifier "b"))).2)
    "b" .VARIABLE (some (.identifier "a"))).2

/-- `var x = 5;` at global scope (spec scenario 1). -/
def tLit : SymbolTable :=
  (declare_unresolved_symbol mkSymbolTable "x" .VARIABLE
    (some (.literal .Integer))).2

/-- A `var`-declared symbol with a null initializer (claim C10). -/
def tNull : SymbolTable :=
  (declare_unresolved_symbol mkSymbolTable "x" .VARIABLE none).2

/-- Two sibling named scopes `A` and `B`, each holding a symbol `d`: the
`d` in `A` (scope 1) is unresolvable, the `d` in `B` (scope 2) is an
explicitly typed `i32`; `X`, declared in `B`, has the initializer `d` and
hence the dependency list `["d"]` (claim C1). -/
def tCtx : SymbolTable :=
  exit_scope
    ((declare_unresolved_symbol
      ((declare_symbol
        (enter_named_scope
          (exit_scope
            ((declare_unresolved_symbol
              (enter_named_scope mkSymbolTable "A")
              "d" .VARIABLE none).2))
          "B")
        "d" .VARIABLE .i32 "i32").2)
      "X" .VARIABLE (some (.identifier "d"))).2)

/-- Global scope holding `x` (claim C2 witness: duplicate at global). -/
def tGx : SymbolTable :=
  (declare_symbol mkSymbolTable "x" .VARIABLE .i32 "i32").2

/-- `x` declared at global, then a named scope `S` entered: the build
cursor is scope 1 while the navigation stack still tops at scope 0
(claim C2 counterexample, first facet). -/
def tC2 : SymbolTable :=
  enter_named_scope tGx "S"

/-- A named scope `S` entered, then `x` declared into it (claim C2
counterexample, second facet: the duplicate check looks at scope 0). -/
def tSx : SymbolTable :=
  (declare_symbol (enter_named_scope mkSymbolTable "S") "x" .VARIABLE .i32 "i32").2

/-- A table with a symbol artificially marked `RESOLVING`, as happens
mid-resolution (claim C5 witness input). -/
def tMidCyc : SymbolTable :=
  updateSymbol tCyc 0 "a" (setState .RESOLVING)

/-- Global scope holding an enum symbol `Color` (claim C7 witness). -/
def tEnum : SymbolTable :=
  (declare_symbol mkSymbolTable "Color" .ENUM .i32 "enum").2

/-- The symbol record of the enum `Color` in `tEnum`. -/
def colorSym : Symbol :=
  { name := "Color", type := .ENUM, data_type := .i32, type_name := "enum"
    declaring_scope_id := 0, resolution_state := .RESOLVED
    init_expr := none, dependencies := [] }

/-! ## Lemmas about the container helpers -/

theorem alistFind_alistModify_self {β : Type} (l : List (String × β)) (n : String)
    (f : β → β) : alistFind (alistModify l n f) n = (alistFind l n).map f := by
  induction l with
  | nil => rfl
  | cons kv rest ih =>
    obtain ⟨k, v⟩ := kv
    by_cases hk : k = n
    · simp [alistModify, alistFind, hk]
    · simp [alistModify, alistFind, hk, ih]

theorem alistFind_alistModify_ne {β : Type} (l : List (String × β)) (n m : String)
    (f : β → β) (h : m ≠ n) :
    alistFind (alistModify l n f) m = alistFind l m := by
  induction l with
  | nil => rfl
  | cons kv rest ih =>
    obtain ⟨k, v⟩ := kv
    by_cases hk : k = n
    · subst hk
      have hkm : k ≠ m := fun hh => h hh.symm
      simp [alistModify, alistFind, hkm]
    · by_cases hkm : k = m
      · simp [alistModify, alistFind, hk, hkm, h]
      · simp [alistModify, alistFind, hk, hkm, ih]

theorem alistFind_alistInsert_self {β : Type} (l : List (String × β)) (n : String)
    (v : β) : alistFind (alistInsert l n v) n = some v := by
  induction l with
  | nil => simp [alistInsert, alistFind]
  | cons kv rest ih =>
    obtain ⟨k, w⟩ := kv
    by_cases hk : k = n
    · simp [alistInsert, alistFind, hk]
    · simp [alistInsert, alistFind, hk, ih]

theorem alistFind_mem {β : Type} (l : List (String × β)) (n : String) (v : β)
    (h : alistFind l n = some v) : (n, v) ∈ l := by
  induction l with
  | nil => cases h
  | cons kv rest ih =>
    obtain ⟨k, w⟩ := kv
    by_cases hk : k = n
    · subst hk
      simp [alistFind] at h
      subst h
      exact List.mem_cons_self _ _
    · simp [alistFind, hk] at h
      exact List.mem_cons_of_mem _ (ih h)

theorem listGet?_listModifyIdx_self {α : Type} (l : List α) (i : Nat) (f : α → α) :
    (listModifyIdx l i f).get? i = (l.get? i).map f := by
  induction l generalizing i with
  | nil => cases i <;> rfl
  | cons a rest ih =>
    cases i with
    | zero => rfl
    | succ j => simpa [listModifyIdx] using ih j

theorem listGet?_listModifyIdx_ne {α : Type} (l : List α) (i j : Nat) (f : α → α)
    (h : j ≠ i) : (listModifyIdx l i f).get? j = l.get? j := by
  induction l generalizing i j with
  | nil => cases i <;> rfl
  | cons a rest ih =>
    cases i with
    | zero =>
      cases j with
      | zero => exact absurd rfl h
      | succ j' => rfl
    | succ i' =>
      cases j with
      | zero => rfl
      | succ j' => simpa [listModifyIdx] using ih i' j' (fun hh => h (by rw [hh]))

theorem listGet?_mem {α : Type} (l : List α) (i : Nat) (a : α)
    (h : l.get? i = some a) : a ∈ l := by
  induction l generalizing i with
  | nil => cases h
  | cons b rest ih =>
    cases i with
    | zero =>
      injection h with h
      subst h
      exact List.mem_cons_self _ _
    | succ j => exact List.mem_cons_of_mem _ (ih j h)

theorem listAll_of_mem {α : Type} (l : List α) (p : α → Bool) (a : α)
    (hall : l.all p = true) (hmem : a ∈ l) : p a = true := by
  induction l with
  | nil => cases hmem
  | cons b rest ih =>
    simp only [List.all_cons, Bool.and_eq_true] at hall
    rcases List.mem_cons.mp hmem with h | h
    · subst h; exact hall.1
    · exact ih hall.2 h

theorem listAll_false_of_mem {α : Type} (l : List α) (p : α → Bool) (a : α)
    (hmem : a ∈ l) (hp : p a = false) : l.all p = false := by
  induction l with
  | nil => cases hmem
  | cons b rest ih =>
    rcases List.mem_cons.mp hmem with h | h
    · subst h; simp [List.all_cons, hp]
    · simp [List.all_cons, ih h]

theorem listDrop_append {α : Type} (l₁ l₂ : List α) :
    (l₁ ++ l₂).drop l₁.length = l₂ := by
  induction l₁ with
  | nil => rfl
  | cons a rest ih => simp [ih]

/-! ## Lemmas about symbol access and update -/

theorem getSymbol_updateSymbol_self (st : SymbolTable) (i : Nat) (n : String)
    (f : Symbol → Symbol) :
    getSymbol (updateSymbol st i n f) i n = (getSymbol st i n).map f := by
  unfold getSymbol getScope updateSymbol
  rw [listGet?_listModifyIdx_self]
  cases st.all_scopes.get? i with
  | none => rfl
  | some sc => simpa using alistFind_alistModify_self sc.symbols n f

theorem getSymbol_updateSymbol_of_ne (st : SymbolTable) (i : Nat) (n : String)
    (f : Symbol → Symbol) (j : Nat) (m : String) (h : j ≠ i ∨ m ≠ n) :
    getSymbol (updateSymbol st i n f) j m = getSymbol st j m := by
  unfold getSymbol getScope updateSymbol
  rcases h with h | h
  · rw [listGet?_listModifyIdx_ne _ _ _ _ h]
  · by_cases hj : j = i
    · subst hj
      rw [listGet?_listModifyIdx_self]
      cases st.all_scopes.get? j with
      | none => rfl
      | some sc => simpa using alistFind_alistModify_ne sc.symbols n m f h
    · rw [listGet?_listModifyIdx_ne _ _ _ _ hj]

theorem scanScopes_spec (name : String) :
    ∀ (l : List Scope) (i j : Nat) (s : Symbol),
      scanScopes name i l = some (j, s) →
      i ≤ j ∧ ∃ sc, l.get? (j - i) = some sc ∧ alistFind sc.symbols name = some s := by
  intro l
  induction l with
  | nil => intro i j s h; cases h
  | cons sc rest ih =>
    intro i j s h
    unfold scanScopes at h
    cases hf : alistFind sc.symbols name with
    | some s0 =>
      rw [hf] at h
      injection h with h
      injection h with h1 h2
      subst h1; subst h2
      exact ⟨Nat.le_refl _, sc, by simp, hf⟩
    | none =>
      rw [hf] at h
      obtain ⟨hle, sc', hget, hfind⟩ := ih (i + 1) j s h
      refine ⟨Nat.le_trans (Nat.le_succ i) hle, sc', ?_, hfind⟩
      have hji : j - i = (j - (i + 1)) + 1 := by omega
      rw [hji]
      simpa using hget

theorem findSymbolScan_getSymbol (st : SymbolTable) (name : String) (sid : Nat)
    (sym : Symbol) (h : findSymbolScan st name = some (sid, sym)) :
    getSymbol st sid name = some sym := by
  obtain ⟨-, sc, hget, hfind⟩ := scanScopes_spec name st.all_scopes 0 sid sym h
  unfold getSymbol getScope
  rw [Nat.sub_zero] at hget
  rw [hget]
  exact hfind

theorem getSymbol_mem (st : SymbolTable) (i : Nat) (n : String) (s : Symbol)
    (h : getSymbol st i n = some s) :
    ∃ sc, sc ∈ st.all_scopes ∧ (n, s) ∈ sc.symbols := by
  unfold getSymbol getScope at h
  cases hg : st.all_scopes.get? i with
  | none => rw [hg] at h; cases h
  | some sc =>
    rw [hg] at h
    exact ⟨sc, listGet?_mem _ _ _ hg, alistFind_mem _ _ _ h⟩

theorem noUnresolvedB_getSymbol (st : SymbolTable)
    (hall : noUnresolvedB st = true) (i : Nat) (n : String) (s : Symbol)
    (h : getSymbol st i n = some s) : s.resolution_state ≠ .UNRESOLVED := by
  obtain ⟨sc, hsc, hkv⟩ := getSymbol_mem st i n s h
  have h1 := listAll_of_mem _ _ _ hall hsc
  have h2 := listAll_of_mem _ _ _ h1 hkv
  simpa using h2

theorem noUnresolvedB_false_of_getSymbol (st : SymbolTable) (i : Nat) (n : String)
    (s : Symbol) (h : getSymbol st i n = some s)
    (hu : s.resolution_state = .UNRESOLVED) : noUnresolvedB st = false := by
  obtain ⟨sc, hsc, hkv⟩ := getSymbol_mem st i n s h
  refine listAll_false_of_mem _ _ _ hsc ?_
  refine listAll_false_of_mem _ _ _ hkv ?_
  simp [hu]

theorem noResolvingB_not_resolvingAt (st : SymbolTable)
    (hall : noResolvingB st = true) (i : Nat) (n : String) :
    ¬ ResolvingAt st i n := by
  rintro ⟨s, hs, hrs⟩
  obtain ⟨sc, hsc, hkv⟩ := getSymbol_mem st i n s hs
  have h1 := listAll_of_mem _ _ _ hall hsc
  have h2 := listAll_of_mem _ _ _ h1 hkv
  simp [hrs] at h2

/-! ## Arithmetic lemmas for the layout computation -/

theorem alignUp_dvd (n a : Nat) (ha : 0 < a) : a ∣ alignUp n a := by
  unfold alignUp
  rw [if_neg (Nat.pos_iff_ne_zero.mp ha)]
  exact ⟨(n + a - 1) / a, Nat.mul_comm _ _⟩

theorem le_alignUp (n a : Nat) (ha : 0 < a) : n ≤ alignUp n a := by
  unfold alignUp
  rw [if_neg (Nat.pos_iff_ne_zero.mp ha)]
  have hdm := Nat.div_add_mod (n + a - 1) a
  have hmlt : (n + a - 1) % a < a := Nat.mod_lt _ ha
  have hmul : (n + a - 1) / a * a = a * ((n + a - 1) / a) := Nat.mul_comm _ _
  omega

theorem alignUp_le (n a m : Nat) (ha : 0 < a) (hdvd : a ∣ m) (hle : n ≤ m) :
    alignUp n a ≤ m := by
  unfold alignUp
  rw [if_neg (Nat.pos_iff_ne_zero.mp ha)]
  obtain ⟨k, hk⟩ := hdvd
  subst hk
  have hq : (n + a - 1) / a ≤ k := by
    rw [Nat.div_le_iff_le_mul_add_pred ha]
    calc n + a - 1 ≤ a * k + a - 1 := by omega
    _ ≤ a * k + (a - 1) := by omega
  calc (n + a - 1) / a * a ≤ k * a := Nat.mul_le_mul_right a hq
  _ = a * k := Nat.mul_comm _ _

/-! ## Lemmas about the struct layout computation -/

theorem layoutFields_names (flds : List (String × IRType)) :
    ∀ cur, ((layoutFieldsFrom cur flds).1).map (fun f => (f.1, f.2.1)) = flds := by
  induction flds with
  | nil => intro cur; rfl
  | cons f rest ih =>
    intro cur
    obtain ⟨n, t⟩ := f
    simp [layoutFieldsFrom, ih]

theorem layoutFields_end (flds : List (String × IRType)) :
    ∀ cur, fieldsEnd cur (layoutFieldsFrom cur flds).1 = (layoutFieldsFrom cur flds).2 := by
  induction flds with
  | nil => intro cur; rfl
  | cons f rest ih =>
    intro cur
    obtain ⟨n, t⟩ := f
    simpa [layoutFieldsFrom, fieldsEnd] using ih _

theorem layoutFields_offsets :
    ∀ (flds : List (String × IRType)),
      (∀ f ∈ flds, 0 < alignOfType f.2) →
      ∀ cur, offsetsWellFormed cur (layoutFieldsFrom cur flds).1 := by
  intro flds
  induction flds with
  | nil => intro _ cur; trivial
  | cons f rest ih =>
    intro hpos cur
    obtain ⟨n, t⟩ := f
    have ht : 0 < alignOfType t := hpos (n, t) (List.mem_cons_self _ _)
    have hrest : ∀ f ∈ rest, 0 < alignOfType f.2 :=
      fun f hf => hpos f (List.mem_cons_of_mem _ hf)
    simp only [layoutFieldsFrom, offsetsWellFormed]
    exact ⟨⟨alignUp_dvd cur _ ht, le_alignUp cur _ ht,
      fun m hm hle => alignUp_le cur _ m ht hm hle⟩, ih hrest _⟩

theorem maxAlign_pos (flds : List (String × IRType)) : 1 ≤ maxAlign flds := by
  induction flds with
  | nil => exact Nat.le_refl 1
  | cons f rest ih =>
    obtain ⟨n, t⟩ := f
    exact Nat.le_trans ih (Nat.le_max_right _ _)

/-! ## Branch lemmas for `string_to_ir_type` -/

theorem string_to_ir_type_class (st : SymbolTable) (n : String) (sym : Symbol)
    (har : ¬ isArrayName n) (hprim : primNameType n = none)
    (hlook : lookup_symbol st n = some sym) (hcls : sym.type = .CLASS) :
    string_to_ir_type st n = .ok (classStructType st n) := by
  simp [string_to_ir_type, har, hprim, hlook, hcls]

theorem string_to_ir_type_enum (st : SymbolTable) (n : String) (sym : Symbol)
    (har : ¬ isArrayName n) (hprim : primNameType n = none)
    (hlook : lookup_symbol st n = some sym) (henum : sym.type = .ENUM) :
    string_to_ir_type st n = .ok .i32 := by
  simp [string_to_ir_type, har, hprim, hlook, henum]

theorem string_to_ir_type_unknown (st : SymbolTable) (n : String)
    (har : ¬ isArrayName n) (hprim : primNameType n = none)
    (hlook : ∀ sym, lookup_symbol st n = some sym →
      sym.type ≠ .CLASS ∧ sym.type ≠ .ENUM) :
    string_to_ir_type st n = .error ("Unknown type: " ++ n) := by
  cases hl : lookup_symbol st n with
  | none => simp [string_to_ir_type, har, hprim, hl]
  | some sym =>
    obtain ⟨h1, h2⟩ := hlook sym hl
    cases hty : sym.type <;> simp_all [string_to_ir_type, har, hprim, hl]

theorem string_to_ir_type_array (st : SymbolTable) (b : String) (hb : b ≠ "") :
    string_to_ir_type st (b ++ "[]") = .ok .ptr := by
  have har : isArrayName (b ++ "[]") := by
    obtain ⟨l⟩ := b
    have hl : l ≠ [] := fun hh => hb (by rw [hh])
    have hlen : 0 < l.length := List.length_pos.mpr hl
    have hdata : (String.mk l ++ "[]").data = l ++ ['[', ']'] := rfl
    constructor
    · show 2 < (String.mk l ++ "[]").length
      have : (String.mk l ++ "[]").length = (l ++ ['[', ']']).length := rfl
      rw [this, List.length_append]
      simp
      omega
    · show lastTwo (String.mk l ++ "[]") = "[]"
      unfold lastTwo
      rw [hdata]
      have hlen2 : (l ++ ['[', ']']).length - 2 = l.length := by
        rw [List.length_append]; rfl
      rw [hlen2, listDrop_append]
  unfold string_to_ir_type
  rw [if_pos har]

theorem stringMk_data (s : String) : String.mk s.data = s := rfl

/-! ## Claim C3 — struct layout of a class type -/

/-- C3 counterexample: the claim's "fields in declaration order" and the
concrete layout `[(b, i32, 0), (x, f32, 4)]` are not properties of the
code: `Scope::symbols` is a `std::unordered_map` and
`get_all_symbols_in_scope` enumerates it in unspecified order.  The same
`Player` map content — identical symbols under both keys, merely
enumerated in the other admissible iteration order — yields the layout
`[(x, f32, 0), (b, i32, 4)]`, not the claimed one. -/
theorem C3_counterexample :
    tPlayerPerm.all_scopes.map (fun sc => sc.scope_name) =
      tPlayer.all_scopes.map (fun sc => sc.scope_name) ∧
    getSymbol tPlayerPerm 1 "b" = getSymbol tPlayer 1 "b" ∧
    getSymbol tPlayerPerm 1 "x" = getSymbol tPlayer 1 "x" ∧
    ((tPlayer.all_scopes.get? 1).map (fun sc => sc.symbols.map (fun kv => kv.1))) =
      some ["b", "x"] ∧
    ((tPlayerPerm.all_scopes.get? 1).map (fun sc => sc.symbols.map (fun kv => kv.1))) =
      some ["x", "b"] ∧
    string_to_ir_type tPlayerPerm "Player" =
      .ok (.structT "Player" [("x", .f32, 0), ("b", .i32, 4)] 8 4) ∧
    string_to_ir_type tPlayerPerm "Player" ≠
      .ok (.structT "Player" [("b", .i32, 0), ("x", .f32, 4)] 8 4) := by
  refine ⟨by decide, rfl, rfl, by decide, by decide, rfl, ?_⟩
  intro h
  rw [show string_to_ir_type tPlayerPerm "Player" =
      .ok (.structT "Player" [("x", .f32, 0), ("b", .i32, 4)] 8 4) from rfl] at h
  injection h with h
  injection h with hn hf hs ha
  injection hf with hhd htl
  injection hhd with hname hrest
  exact absurd hname (by decide)

/-- C3 amended: for every `CLASS` symbol whose name also names a scope,
`string_to_ir_type` returns a struct whose fields are exactly the
`VARIABLE` symbols of that scope in the symbol map's iteration order —
which the source (`std::unordered_map`) leaves unspecified, so declaration
order is not guaranteed — each field offset the least value `≥` the
previous field's end that is a multiple of the field's alignment, the
aggregate alignment the maximum field alignment (at least one), and the
size the least multiple of that alignment covering the field region.
These invariants hold for whatever order the map enumerates; for `Player`
the witness checks the enumeration in which `b` comes first, giving
`(b, i32, 0)`, `(x, f32, 4)`, size `8`, alignment `4` — the counterexample
shows the other enumeration swaps the two offsets. -/
theorem C3_struct_layout (st : SymbolTable) (n : String) (sym : Symbol) (tsid : Nat)
    (har : ¬ isArrayName n) (hprim : primNameType n = none)
    (hlook : lookup_symbol st n = some sym) (hcls : sym.type = .CLASS)
    (hfind : find_scope_by_name st n = Int.ofNat tsid)
    (hpos : ∀ f ∈ varFieldsOf st (Int.ofNat tsid), 0 < alignOfType f.2) :
    ∃ fs sz al,
      string_to_ir_type st n = .ok (.structT n fs sz al) ∧
      fs.map (fun f => (f.1, f.2.1)) = varFieldsOf st (Int.ofNat tsid) ∧
      offsetsWellFormed 0 fs ∧
      al = maxAlign (varFieldsOf st (Int.ofNat tsid)) ∧ 1 ≤ al ∧
      al ∣ sz ∧ fieldsEnd 0 fs ≤ sz ∧
      (∀ m, al ∣ m → fieldsEnd 0 fs ≤ m → sz ≤ m) := by
  have hcl : string_to_ir_type st n = .ok (classStructType st n) :=
    string_to_ir_type_class st n sym har hprim hlook hcls
  have hcst : classStructType st n =
      .structT n (layoutFieldsFrom 0 (varFieldsOf st (Int.ofNat tsid))).1
        (alignUp (layoutFieldsFrom 0 (varFieldsOf st (Int.ofNat tsid))).2
          (maxAlign (varFieldsOf st (Int.ofNat tsid))))
        (maxAlign (varFieldsOf st (Int.ofNat tsid))) := by
    simp only [classStructType, hfind, calculate_layout]
    rw [if_neg (by simp : ¬ (Int.ofNat tsid = -1))]
  refine ⟨(layoutFieldsFrom 0 (varFieldsOf st (Int.ofNat tsid))).1,
    alignUp (layoutFieldsFrom 0 (varFieldsOf st (Int.ofNat tsid))).2
      (maxAlign (varFieldsOf st (Int.ofNat tsid))),
    maxAlign (varFieldsOf st (Int.ofNat tsid)),
    ?_, ?_, ?_, rfl, maxAlign_pos _, ?_, ?_, ?_⟩
  · rw [hcl, hcst]
  · exact layoutFields_names _ 0
  · exact layoutFields_offsets _ hpos 0
  · exact alignUp_dvd _ _ (maxAlign_pos _)
  · rw [layoutFields_end _ 0]
    exact le_alignUp _ _ (maxAlign_pos _)
  · intro m hm hle
    rw [layoutFields_end _ 0] at hle
    exact alignUp_le _ _ m (maxAlign_pos _) hm hle

/-- C3 witness: the `Player` table whose map enumerates `b` first, through
the theorem, plus the concrete layout values that enumeration yields. -/
theorem C3_struct_layout_witness :
    (∃ fs sz al,
      string_to_ir_type tPlayer "Player" = .ok (.structT "Player" fs sz al) ∧
      fs.map (fun f => (f.1, f.2.1)) = varFieldsOf tPlayer (Int.ofNat 1) ∧
      offsetsWellFormed 0 fs ∧
      al = maxAlign (varFieldsOf tPlayer (Int.ofNat 1)) ∧ 1 ≤ al ∧
      al ∣ sz ∧ fieldsEnd 0 fs ≤ sz ∧
      (∀ m, al ∣ m → fieldsEnd 0 fs ≤ m → sz ≤ m)) ∧
    string_to_ir_type tPlayer "Player" =
      .ok (.structT "Player" [("b", .i32, 0), ("x", .f32, 4)] 8 4) := by
  constructor
  · exact C3_struct_layout tPlayer "Player" playerSym 1 (by decide) rfl rfl rfl rfl
      (by decide)
  · rfl

/-! ## Claim C7 — the `type_from_name` mapping -/

/-- C7: the nine primitive spellings map to the corresponding primitive on
every graph (so primitives take precedence over any user symbol of the same
name); `"string"` and every `"[]"`-suffixed name map to `ptr`; a
non-primitive name whose looked-up symbol is an `ENUM` maps to `i32`; and a
non-primitive, non-array name for which the lookup yields no `CLASS` or
`ENUM` symbol fails with the unknown-type error. -/
theorem C7_type_from_name :
    (∀ st : SymbolTable,
      string_to_ir_type st "i8" = .ok .i8 ∧
      string_to_ir_type st "i16" = .ok .i16 ∧
      string_to_ir_type st "i32" = .ok .i32 ∧
      string_to_ir_type st "i64" = .ok .i64 ∧
      string_to_ir_type st "f32" = .ok .f32 ∧
      string_to_ir_type st "f64" = .ok .f64 ∧
      string_to_ir_type st "bool" = .ok .bool_ ∧
      string_to_ir_type st "void" = .ok .void_ ∧
      string_to_ir_type st "ptr" = .ok .ptr ∧
      string_to_ir_type st "string" = .ok .ptr) ∧
    (∀ (st : SymbolTable) (b : String), b ≠ "" →
      string_to_ir_type st (b ++ "[]") = .ok .ptr) ∧
    (∀ (st : SymbolTable) (n : String) (sym : Symbol),
      ¬ isArrayName n → primNameType n = none →
      lookup_symbol st n = some sym → sym.type = .ENUM →
      string_to_ir_type st n = .ok .i32) ∧
    (∀ (st : SymbolTable) (n : String),
      ¬ isArrayName n → primNameType n = none →
      (∀ sym, lookup_symbol st n = some sym →
        sym.type ≠ .CLASS ∧ sym.type ≠ .ENUM) →
      string_to_ir_type st n = .error ("Unknown type: " ++ n)) := by
  exact ⟨fun st => ⟨rfl, rfl, rfl, rfl, rfl, rfl, rfl, rfl, rfl, rfl⟩,
    string_to_ir_type_array, string_to_ir_type_enum, string_to_ir_type_unknown⟩

/-- C7 witness: the enum, array and unknown cases at concrete inputs, via
the theorem. -/
theorem C7_type_from_name_witness :
    string_to_ir_type tEnum "Color" = .ok .i32 ∧
    string_to_ir_type mkSymbolTable ("arr" ++ "[]") = .ok .ptr ∧
    string_to_ir_type mkSymbolTable "Missing" =
      .error ("Unknown type: " ++ "Missing") := by
  refine ⟨C7_type_from_name.2.2.1 tEnum "Color" colorSym (by decide) rfl rfl rfl,
    C7_type_from_name.2.1 mkSymbolTable "arr" (by decide),
    C7_type_from_name.2.2.2 mkSymbolTable "Missing" (by decide) rfl ?_⟩
  intro sym h
  have hnone : lookup_symbol mkSymbolTable "Missing" = none := rfl
  rw [hnone] at h
  cases h

/-! ## Claim C8 — anonymous scopes and the name index -/

/-- C8 counterexample: the claim says a scope created by `enter_scope` does
not participate in the scope-name index; in fact `enter_scope` funnels
through `enter_named_scope`, which registers the synthetic name — on a
fresh table the anonymous scope `scope_1` is found by
`find_scope_by_name`. -/
theorem C8_counterexample :
    (enter_scope mkSymbolTable).all_scopes.map (fun sc => sc.scope_name) =
      ["global", "scope_1"] ∧
    find_scope_by_name (enter_scope mkSymbolTable) "scope_1" = 1 := by
  exact ⟨by decide, by decide⟩

/-- C8 amended: every scope — anonymous ones included — is registered in the
global name index: `enter_scope st` creates the scope `scope_<n>` (`n` the
next scope id) by calling `enter_named_scope`, and afterwards the synthetic
name is found by `find_scope_by_name`. -/
theorem C8_amended_scope_index (st : SymbolTable) :
    enter_scope st = enter_named_scope st ("scope_" ++ toString st.next_scope_id) ∧
    find_scope_by_name (enter_scope st) ("scope_" ++ toString st.next_scope_id) =
      Int.ofNat st.next_scope_id := by
  refine ⟨rfl, ?_⟩
  show find_scope_by_name (enter_named_scope st _) _ = _
  unfold find_scope_by_name enter_named_scope
  rw [alistFind_alistInsert_self]

/-- C8 amended witness: the fresh-table instance, through the theorem. -/
theorem C8_amended_scope_index_witness :
    find_scope_by_name (enter_scope mkSymbolTable)
      ("scope_" ++ toString mkSymbolTable.next_scope_id) =
      Int.ofNat mkSymbolTable.next_scope_id :=
  (C8_amended_scope_index mkSymbolTable).2

/-! ## Claim C2 — duplicate detection in `declare_symbol` -/

/-- C2 counterexample: the duplicate check of `declare_symbol` consults the
top of the navigation stack, not the build cursor.  First facet: with `x` at
global scope and the build cursor inside the named scope `S` (which does not
contain `x`), the call fails although the build-cursor scope holds no `x`.
Second facet: with `x` already declared inside `S`, declaring `x` there a
second time returns `true` instead of the claimed `false`. -/
theorem C2_counterexample :
    (tC2.building_scope_level = 1 ∧
      stateAt tC2 1 "x" = none ∧
      (declare_symbol tC2 "x" .VARIABLE .i32 "i32").1 = false) ∧
    (declare_symbol tSx "x" .VARIABLE .i32 "i32").1 = true := by
  exact ⟨⟨rfl, rfl, by decide⟩, by decide⟩

/-- C2 amended: `declare_symbol` inserts into the build-cursor scope, but
fails (returning `false` and leaving the graph unchanged) if and only if the
scope at the top of the navigation stack already contains the name; on
success the new `RESOLVED` symbol is stored in the build-cursor scope.
(When the navigation top coincides with the build cursor — e.g. both at the
global scope — this specializes to the claim's duplicate-declaration
scenario, checked in the witness.) -/
theorem C2_amended_declare (st : SymbolTable) (name : String) (ty : SymbolType)
    (dt : IRType) (tn : String) :
    ((declare_symbol st name ty dt tn).1 = false ↔
      (lookup_symbol_current_scope st name).isSome = true) ∧
    ((lookup_symbol_current_scope st name).isSome = true →
      (declare_symbol st name ty dt tn).2 = st) ∧
    ((lookup_symbol_current_scope st name).isSome = false →
      st.building_scope_level < st.all_scopes.length →
      getSymbol (declare_symbol st name ty dt tn).2 st.building_scope_level name =
        some { name := name, type := ty, data_type := dt, type_name := tn
               declaring_scope_id := Int.ofNat st.building_scope_level
               resolution_state := .RESOLVED, init_expr := none
               dependencies := [] }) := by
  by_cases hs : (lookup_symbol_current_scope st name).isSome = true
  · refine ⟨?_, fun _ => ?_, fun hf _ => ?_⟩
    · simp [declare_symbol, symbol_exists_current_scope, hs]
    · simp [declare_symbol, symbol_exists_current_scope, hs]
    · rw [hs] at hf
      cases hf
  · have hs'' : (lookup_symbol_current_scope st name).isSome = false := by
      simpa using hs
    refine ⟨?_, fun h => ?_, fun _ hlt => ?_⟩
    · simp [declare_symbol, symbol_exists_current_scope, hs'']
    · rw [h] at hs''
      cases hs''
    · simp only [declare_symbol, symbol_exists_current_scope, hs'',
        Bool.false_eq_true, if_false]
      unfold insertSymbol getSymbol getScope
      rw [listGet?_listModifyIdx_self]
      cases hg : st.all_scopes.get? st.building_scope_level with
      | none => exact absurd (List.get?_eq_none.mp hg) (Nat.not_le_of_lt hlt)
      | some sc => simp [alistFind_alistInsert_self]

/-- C2 witness: the duplicate-declaration scenario at the global scope,
through the amended theorem — the second call returns `false`, leaves the
graph unchanged, and exactly one symbol `x` exists. -/
theorem C2_amended_declare_witness :
    (declare_symbol tGx "x" .VARIABLE .i32 "i32").1 = false ∧
    (declare_symbol tGx "x" .VARIABLE .i32 "i32").2 = tGx ∧
    tGx.all_scopes.map (fun sc => sc.symbols.map (fun kv => kv.1)) = [["x"]] := by
  have h := C2_amended_declare tGx "x" .VARIABLE .i32 "i32"
  have hsome : (lookup_symbol_current_scope tGx "x").isSome = true := by decide
  exact ⟨h.1.mpr hsome, h.2.1 hsome, by decide⟩

/-! ## Claim C4 — member-function fallback of `lookup_symbol` -/

theorem lookupWalk_top_step (st : SymbolTable) (name : String) (top : Nat)
    (rest' : List Nat) (topSc : Scope)
    (hsc : getScope st top = some topSc)
    (hfind : alistFind topSc.symbols name = none) :
    lookupWalk st name true (top :: rest') =
      (match memberFallback st topSc.scope_name name with
       | some s => some s
       | none => lookupWalk st name false rest') := by
  simp [lookupWalk, hsc, hfind]

theorem lookup_symbol_stack_top (st : SymbolTable) (name : String)
    (rest : List Nat) (top : Nat) (topSc : Scope)
    (hstack : st.active_scope_stack = rest ++ [top])
    (hsc : getScope st top = some topSc)
    (hfind : alistFind topSc.symbols name = none) :
    lookup_symbol st name =
      (match memberFallback st topSc.scope_name name with
       | some s => some s
       | none => lookupWalk st name false rest.reverse) := by
  unfold lookup_symbol
  rw [hstack, List.reverse_append]
  simp only [List.reverse_singleton, List.singleton_append]
  exact lookupWalk_top_step st name top rest.reverse topSc hsc hfind

/-- C4: on a navigation stack whose top scope is named `T::…`, a lookup that
misses in the top scope consults scope `T` directly — before any lower
stack entry — and returns the symbol found there exactly when its kind is
`VARIABLE`; when the kind is not `VARIABLE` the walk continues with the
lower stack entries.  (The concrete `[0, Player, Player::GetX]` lookup of
the field `b` is checked in the witness.) -/
theorem C4_member_fallback :
    (∀ (st : SymbolTable) (name : String) (rest : List Nat) (top : Nat)
        (topSc : Scope) (T : String) (fs : Symbol),
      st.active_scope_stack = rest ++ [top] →
      getScope st top = some topSc →
      alistFind topSc.symbols name = none →
      beforeSep topSc.scope_name.data = some T.data →
      find_scope_by_name st T ≠ -1 →
      lookup_symbol_in_scope st (find_scope_by_name st T) name = some fs →
      fs.type = .VARIABLE →
      lookup_symbol st name = some fs) ∧
    (∀ (st : SymbolTable) (name : String) (rest : List Nat) (top : Nat)
        (topSc : Scope) (T : String) (fs : Symbol),
      st.active_scope_stack = rest ++ [top] →
      getScope st top = some topSc →
      alistFind topSc.symbols name = none →
      beforeSep topSc.scope_name.data = some T.data →
      find_scope_by_name st T ≠ -1 →
      lookup_symbol_in_scope st (find_scope_by_name st T) name = some fs →
      fs.type ≠ .VARIABLE →
      lookup_symbol st name = lookupWalk st name false rest.reverse) := by
  constructor
  · intro st name rest top topSc T fs hstack hsc hfind hsep hne hlis hvar
    rw [lookup_symbol_stack_top st name rest top topSc hstack hsc hfind]
    have hfb : memberFallback st topSc.scope_name name = some fs := by
      simp only [memberFallback, hsep]
      rw [stringMk_data, if_neg hne, hlis]
      simp [hvar]
    rw [hfb]
  · intro st name rest top topSc T fs hstack hsc hfind hsep hne hlis hvar
    rw [lookup_symbol_stack_top st name rest top topSc hstack hsc hfind]
    have hfb : memberFallback st topSc.scope_name name = none := by
      simp only [memberFallback, hsep]
      rw [stringMk_data, if_neg hne, hlis]
      simp [hvar]
    rw [hfb]

/-- C4 witness: inside `Player::GetX` with the navigation stack
`[0, Player, Player::GetX]`, `lookup_symbol "b"` returns the `VARIABLE`
symbol of the field `b` of `Player`, through the theorem. -/
theorem C4_member_fallback_witness :
    lookup_symbol tGetX "b" = some bFieldSym := by
  exact C4_member_fallback.1 tGetX "b" [0, 1] 2
    { scope_name := "Player::GetX", parent_scope_id := 1, symbols := [] }
    "Player" bFieldSym rfl rfl rfl rfl (by decide) rfl rfl

/-! ## Preservation lemmas for the resolver

The two invariants that drive claims C1, C5, C6, C9 and C10:
resolution preserves the set of `RESOLVING` symbols exactly (every
`resolve_symbol_type` call restores the symbol it marked), and a symbol
without an initializer that is not `RESOLVED` can never become
`RESOLVED`. -/

theorem resolve_succ_eq (fuel : Nat) (st : SymbolTable) (name : String) :
    resolve_symbol_type (Nat.succ fuel) st name =
      (match findSymbolScan st name with
       | none => (false, st)
       | some (sid, sym) =>
         resolveFound (resolve_symbol_type fuel) st name sid sym) := rfl

theorem resolve_succ_none (fuel : Nat) (st : SymbolTable) (name : String)
    (h : findSymbolScan st name = none) :
    resolve_symbol_type (Nat.succ fuel) st name = (false, st) := by
  rw [resolve_succ_eq, h]

theorem resolve_succ_found (fuel : Nat) (st : SymbolTable) (name : String)
    (sid : Nat) (sym : Symbol)
    (h : findSymbolScan st name = some (sid, sym)) :
    resolve_symbol_type (Nat.succ fuel) st name =
      resolveFound (resolve_symbol_type fuel) st name sid sym := by
  rw [resolve_succ_eq, h]

theorem resolve_zero_eq (st : SymbolTable) (name : String) :
    resolve_symbol_type 0 st name = (false, st) := rfl

theorem resolveDeps_nil (recur : SymbolTable → String → Bool × SymbolTable)
    (ctx : Int) (st : SymbolTable) : resolveDeps recur ctx st [] = (true, st) := rfl

theorem resolveAfterDeps_true (sid : Nat) (name : String) (sym : Symbol)
    (st2 : SymbolTable) :
    resolveAfterDeps sid name sym (true, st2) = finishResolve st2 sid name sym := rfl

theorem resolveAfterDeps_false (sid : Nat) (name : String) (sym : Symbol)
    (st2 : SymbolTable) :
    resolveAfterDeps sid name sym (false, st2) =
      (false, updateSymbol st2 sid name (setState .UNRESOLVED)) := rfl

theorem finishResolve_none (st : SymbolTable) (sid : Nat) (n : String)
    (sym : Symbol) (h : sym.init_expr = none) :
    finishResolve st sid n sym =
      (false, updateSymbol st sid n (setState .UNRESOLVED)) := by
  unfold finishResolve
  rw [h]

theorem finishInfer_shape (st : SymbolTable) (sid : Nat) (n : String)
    (inferred : String) :
    ∃ g : Symbol → Symbol,
      (finishInfer st sid n inferred).2 = updateSymbol st sid n g ∧
      ∀ s, (g s).resolution_state ≠ .RESOLVING ∧ (g s).init_expr = s.init_expr := by
  unfold finishInfer
  by_cases hinf : inferred = "unresolved"
  · rw [if_pos hinf]
    exact ⟨setState .UNRESOLVED, rfl, fun s => ⟨by simp [setState], rfl⟩⟩
  · rw [if_neg hinf]
    cases hir : string_to_ir_type st inferred with
    | ok dt =>
      exact ⟨(fun s => { s with data_type := dt, type_name := inferred, resolution_state := .RESOLVED }), rfl, fun s => ⟨by simp, rfl⟩⟩
    | error e =>
      exact ⟨setState .UNRESOLVED, rfl, fun s => ⟨by simp [setState], rfl⟩⟩

theorem finishResolve_shape (st : SymbolTable) (sid : Nat) (n : String)
    (sym : Symbol) :
    ∃ g : Symbol → Symbol,
      (finishResolve st sid n sym).2 = updateSymbol st sid n g ∧
      ∀ s, (g s).resolution_state ≠ .RESOLVING ∧ (g s).init_expr = s.init_expr := by
  unfold finishResolve
  cases hin : sym.init_expr with
  | some init => exact finishInfer_shape st sid n _
  | none => exact ⟨setState .UNRESOLVED, rfl, fun s => ⟨by simp [setState], rfl⟩⟩

theorem resolveDeps_pred_iff (Q : SymbolTable → Prop)
    (recur : SymbolTable → String → Bool × SymbolTable) (ctx : Int)
    (hf : ∀ st n, Q (recur st n).2 ↔ Q st) :
    ∀ (deps : List String) (st : SymbolTable),
      Q (resolveDeps recur ctx st deps).2 ↔ Q st := by
  intro deps
  induction deps with
  | nil => intro st; exact Iff.rfl
  | cons d rest ih =>
    intro st
    unfold resolveDeps resolve_symbol_type_in_context
    cases hr : recur st d with
    | mk b st' =>
      have hQ : Q st' ↔ Q st := by
        have h := hf st d
        rw [hr] at h
        exact h
      cases b
      · exact hQ
      · exact (ih st').trans hQ

theorem resolveDeps_pred_mono (Q : SymbolTable → Prop)
    (recur : SymbolTable → String → Bool × SymbolTable) (ctx : Int)
    (hf : ∀ st n, Q st → Q (recur st n).2) :
    ∀ (deps : List String) (st : SymbolTable),
      Q st → Q (resolveDeps recur ctx st deps).2 := by
  intro deps
  induction deps with
  | nil => intro st h; exact h
  | cons d rest ih =>
    intro st h
    unfold resolveDeps resolve_symbol_type_in_context
    cases hr : recur st d with
    | mk b st' =>
      have hQ : Q st' := by
        have h2 := hf st d h
        rw [hr] at h2
        exact h2
      cases b
      · exact hQ
      · exact ih st' hQ

/-- Resolution preserves the set of `RESOLVING` symbols exactly: every call
restores the symbol it marked to `RESOLVED` or `UNRESOLVED`, and an
already-`RESOLVING` symbol is returned from untouched. -/
theorem resolve_resolvingAt :
    ∀ (fuel : Nat) (st : SymbolTable) (name : String) (i : Nat) (m : String),
      ResolvingAt (resolve_symbol_type fuel st name).2 i m ↔ ResolvingAt st i m := by
  intro fuel
  induction fuel with
  | zero => intro st name i m; exact Iff.rfl
  | succ fuel ih =>
    intro st name i m
    cases hscan : findSymbolScan st name with
    | none => rw [resolve_succ_none fuel st name hscan]
    | some p =>
      obtain ⟨sid, sym⟩ := p
      rw [resolve_succ_found fuel st name sid sym hscan]
      unfold resolveFound
      by_cases h1 : sym.resolution_state = .RESOLVED
      · rw [if_pos h1]
      · rw [if_neg h1]
        by_cases h2 : sym.resolution_state = .RESOLVING
        · rw [if_pos h2]
        · rw [if_neg h2]
          have hU : sym.resolution_state = .UNRESOLVED := by
            cases hst : sym.resolution_state
            · rfl
            · exact absurd hst h2
            · exact absurd hst h1
          have hsym : getSymbol st sid name = some sym :=
            findSymbolScan_getSymbol st name sid sym hscan
          generalize hr : resolveDeps (resolve_symbol_type fuel) (Int.ofNat sid)
            (updateSymbol st sid name (setState .RESOLVING)) sym.dependencies = r
          have hdeps : ∀ (j : Nat) (l : String), ResolvingAt r.2 j l ↔
              ResolvingAt (updateSymbol st sid name (setState .RESOLVING)) j l := by
            intro j l
            rw [← hr]
            exact resolveDeps_pred_iff (fun t => ResolvingAt t j l) _ _
              (fun st' n' => ih st' n' j l) _ _
          have key : ∀ g : Symbol → Symbol,
              (∀ s, (g s).resolution_state ≠ .RESOLVING) →
              (ResolvingAt (updateSymbol r.2 sid name g) i m ↔ ResolvingAt st i m) := by
            intro g hg
            by_cases hx : i = sid ∧ m = name
            · rcases hx with ⟨rfl, rfl⟩
              constructor
              · rintro ⟨s, hs, hrs⟩
                rw [getSymbol_updateSymbol_self] at hs
                cases hg2 : getSymbol r.2 i m with
                | none => rw [hg2] at hs; cases hs
                | some s2 =>
                  rw [hg2] at hs
                  injection hs with hs
                  rw [← hs] at hrs
                  exact absurd hrs (hg s2)
              · rintro ⟨s, hs, hrs⟩
                rw [hsym] at hs
                injection hs with hs
                rw [← hs] at hrs
                rw [hU] at hrs
                cases hrs
            · have hne2 : i ≠ sid ∨ m ≠ name := by tauto
              have e1 : getSymbol (updateSymbol r.2 sid name g) i m =
                  getSymbol r.2 i m :=
                getSymbol_updateSymbol_of_ne _ _ _ _ _ _ hne2
              have e2 : getSymbol (updateSymbol st sid name (setState .RESOLVING)) i m =
                  getSymbol st i m :=
                getSymbol_updateSymbol_of_ne _ _ _ _ _ _ hne2
              have h3 := hdeps i m
              unfold ResolvingAt at h3 ⊢
              rw [e1]
              rw [e2] at h3
              exact h3
          cases r with
          | mk b st2 =>
            cases b
            · show ResolvingAt (updateSymbol st2 sid name (setState .UNRESOLVED)) i m ↔ ResolvingAt st i m
              exact key (setState .UNRESOLVED) (fun s => by simp [setState])
            · show ResolvingAt (finishResolve st2 sid name sym).2 i m ↔ _
              obtain ⟨g, hg2, hgp⟩ := finishResolve_shape st2 sid name sym
              rw [hg2]
              exact key g (fun s => (hgp s).1)

/-- A symbol with no initializer that is not `RESOLVED` stays that way
through any resolution call: it provides nothing to infer from, so the only
transition resolution can apply to it ends at `UNRESOLVED`. -/
theorem resolve_nullInitStuck :
    ∀ (fuel : Nat) (st : SymbolTable) (name : String) (i : Nat) (m : String),
      NullInitStuck st i m →
      NullInitStuck (resolve_symbol_type fuel st name).2 i m := by
  intro fuel
  induction fuel with
  | zero => intro st name i m h; exact h
  | succ fuel ih =>
    intro st name i m h
    cases hscan : findSymbolScan st name with
    | none => rw [resolve_succ_none fuel st name hscan]; exact h
    | some p =>
      obtain ⟨sid, sym⟩ := p
      rw [resolve_succ_found fuel st name sid sym hscan]
      unfold resolveFound
      by_cases h1 : sym.resolution_state = .RESOLVED
      · rw [if_pos h1]; exact h
      · rw [if_neg h1]
        by_cases h2 : sym.resolution_state = .RESOLVING
        · rw [if_pos h2]; exact h
        · rw [if_neg h2]
          have hsym : getSymbol st sid name = some sym :=
            findSymbolScan_getSymbol st name sid sym hscan
          have h1' : NullInitStuck
              (updateSymbol st sid name (setState .RESOLVING)) i m := by
            obtain ⟨s, hs, hsi, hsr⟩ := h
            by_cases hx : i = sid ∧ m = name
            · rcases hx with ⟨rfl, rfl⟩
              refine ⟨setState .RESOLVING s, ?_, hsi, by simp [setState]⟩
              rw [getSymbol_updateSymbol_self, hs]
              rfl
            · have hne2 : i ≠ sid ∨ m ≠ name := by tauto
              refine ⟨s, ?_, hsi, hsr⟩
              rw [getSymbol_updateSymbol_of_ne _ _ _ _ _ _ hne2]
              exact hs
          generalize hr : resolveDeps (resolve_symbol_type fuel) (Int.ofNat sid)
            (updateSymbol st sid name (setState .RESOLVING)) sym.dependencies = r
          have h2' : NullInitStuck r.2 i m := by
            rw [← hr]
            exact resolveDeps_pred_mono (fun t => NullInitStuck t i m) _ _
              (fun st' n' => ih st' n' i m) _ _ h1'
          cases r with
          | mk b st2 =>
            cases b
            · show NullInitStuck (updateSymbol st2 sid name (setState .UNRESOLVED)) i m
              obtain ⟨s, hs, hsi, hsr⟩ := h2'
              by_cases hx : i = sid ∧ m = name
              · rcases hx with ⟨rfl, rfl⟩
                refine ⟨setState .UNRESOLVED s, ?_, hsi, by simp [setState]⟩
                rw [getSymbol_updateSymbol_self, hs]
                rfl
              · have hne2 : i ≠ sid ∨ m ≠ name := by tauto
                refine ⟨s, ?_, hsi, hsr⟩
                rw [getSymbol_updateSymbol_of_ne _ _ _ _ _ _ hne2]
                exact hs
            · show NullInitStuck (finishResolve st2 sid name sym).2 i m
              by_cases hx : i = sid ∧ m = name
              · rcases hx with ⟨rfl, rfl⟩
                obtain ⟨s0, hs0, hsi0, hsr0⟩ := h
                rw [hsym] at hs0
                injection hs0 with hs0
                have hsymInit : sym.init_expr = none := by
                  rw [hs0]
                  exact hsi0
                unfold finishResolve
                rw [hsymInit]
                obtain ⟨s, hs, hsi, hsr⟩ := h2'
                refine ⟨setState .UNRESOLVED s, ?_, hsi, by simp [setState]⟩
                rw [getSymbol_updateSymbol_self, hs]
                rfl
              · obtain ⟨g, hg2, hgp⟩ := finishResolve_shape st2 sid name sym
                have hne2 : i ≠ sid ∨ m ≠ name := by tauto
                obtain ⟨s, hs, hsi, hsr⟩ := h2'
                rw [hg2]
                refine ⟨s, ?_, hsi, hsr⟩
                rw [getSymbol_updateSymbol_of_ne _ _ _ _ _ _ hne2]
                exact hs

theorem resolvePassStep_pred_iff (Q : SymbolTable → Prop)
    (hres : ∀ (fuel : Nat) (st : SymbolTable) (n : String),
      Q (resolve_symbol_type fuel st n).2 ↔ Q st)
    (acc : Bool × SymbolTable) (k : Nat × String) :
    Q (resolvePassStep acc k).2 ↔ Q acc.2 := by
  cases hg : getSymbol acc.2 k.1 k.2 with
  | none => simp only [resolvePassStep, hg]
  | some sym =>
    simp only [resolvePassStep, hg]
    by_cases hu : sym.resolution_state = .UNRESOLVED
    · rw [if_pos hu]
      cases hr : resolve_symbol_type (totalFuel acc.2) acc.2 k.2 with
      | mk b st2 =>
        have h := hres (totalFuel acc.2) acc.2 k.2
        rw [hr] at h
        exact h
    · rw [if_neg hu]

theorem resolvePassStep_pred_mono (Q : SymbolTable → Prop)
    (hres : ∀ (fuel : Nat) (st : SymbolTable) (n : String),
      Q st → Q (resolve_symbol_type fuel st n).2)
    (acc : Bool × SymbolTable) (k : Nat × String) (h : Q acc.2) :
    Q (resolvePassStep acc k).2 := by
  cases hg : getSymbol acc.2 k.1 k.2 with
  | none => simp only [resolvePassStep, hg]; exact h
  | some sym =>
    simp only [resolvePassStep, hg]
    by_cases hu : sym.resolution_state = .UNRESOLVED
    · rw [if_pos hu]
      cases hr : resolve_symbol_type (totalFuel acc.2) acc.2 k.2 with
      | mk b st2 =>
        have h2 := hres (totalFuel acc.2) acc.2 k.2 h
        rw [hr] at h2
        exact h2
    · rw [if_neg hu]; exact h

theorem foldl_pass_iff (Q : SymbolTable → Prop)
    (hres : ∀ (fuel : Nat) (st : SymbolTable) (n : String),
      Q (resolve_symbol_type fuel st n).2 ↔ Q st) :
    ∀ (l : List (Nat × String)) (acc : Bool × SymbolTable),
      Q (l.foldl resolvePassStep acc).2 ↔ Q acc.2 := by
  intro l
  induction l with
  | nil => intro acc; exact Iff.rfl
  | cons k rest ih =>
    intro acc
    rw [List.foldl_cons]
    exact (ih _).trans (resolvePassStep_pred_iff Q hres acc k)

theorem foldl_pass_mono (Q : SymbolTable → Prop)
    (hres : ∀ (fuel : Nat) (st : SymbolTable) (n : String),
      Q st → Q (resolve_symbol_type fuel st n).2) :
    ∀ (l : List (Nat × String)) (acc : Bool × SymbolTable),
      Q acc.2 → Q (l.foldl resolvePassStep acc).2 := by
  intro l
  induction l with
  | nil => intro acc h; exact h
  | cons k rest ih =>
    intro acc h
    rw [List.foldl_cons]
    exact ih _ (resolvePassStep_pred_mono Q hres acc k h)

theorem resolveLoop_pred_iff (Q : SymbolTable → Prop)
    (hpass : ∀ st, Q (resolvePass st).2 ↔ Q st) :
    ∀ (rem : Nat) (st : SymbolTable), Q (resolveLoop rem st).2 ↔ Q st := by
  intro rem
  induction rem with
  | zero => intro st; exact Iff.rfl
  | succ rem ih =>
    intro st
    unfold resolveLoop
    cases hr : resolvePass st with
    | mk b st' =>
      have hQ : Q st' ↔ Q st := by
        have h := hpass st
        rw [hr] at h
        exact h
      cases b
      · exact hQ
      · exact (ih st').trans hQ

theorem resolveLoop_pred_mono (Q : SymbolTable → Prop)
    (hpass : ∀ st, Q st → Q (resolvePass st).2) :
    ∀ (rem : Nat) (st : SymbolTable), Q st → Q (resolveLoop rem st).2 := by
  intro rem
  induction rem with
  | zero => intro st h; exact h
  | succ rem ih =>
    intro st h
    unfold resolveLoop
    cases hr : resolvePass st with
    | mk b st' =>
      have hQ : Q st' := by
        have h2 := hpass st h
        rw [hr] at h2
        exact h2
      cases b
      · exact hQ
      · exact ih st' hQ

theorem finalReport_eq (it : Nat) (st' : SymbolTable) :
    finalReport (it, st') =
      if 10 ≤ it then (false, st') else (noUnresolvedB st', st') := rfl

theorem resolve_all_types_resolvingAt (st : SymbolTable) (i : Nat) (m : String) :
    ResolvingAt (resolve_all_types st).2 i m ↔ ResolvingAt st i m := by
  unfold resolve_all_types
  cases hr : resolveLoop 10 st with
  | mk it st' =>
    have hQ : ResolvingAt st' i m ↔ ResolvingAt st i m := by
      have h := resolveLoop_pred_iff (fun t => ResolvingAt t i m)
        (fun st0 => foldl_pass_iff (fun t => ResolvingAt t i m)
          (fun fuel st1 n => resolve_resolvingAt fuel st1 n i m) _ _) 10 st
      rw [hr] at h
      exact h
    rw [finalReport_eq]
    by_cases h10 : 10 ≤ it
    · rw [if_pos h10]; exact hQ
    · rw [if_neg h10]; exact hQ

theorem resolve_all_types_true_noUnresolved (st : SymbolTable)
    (h : (resolve_all_types st).1 = true) :
    noUnresolvedB (resolve_all_types st).2 = true := by
  unfold resolve_all_types at h ⊢
  cases hr : resolveLoop 10 st with
  | mk it st' =>
    rw [hr] at h
    rw [finalReport_eq] at h ⊢
    by_cases h10 : 10 ≤ it
    · rw [if_pos h10] at h; cases h
    · rw [if_neg h10] at h ⊢; exact h

/-! ## Claim C6 — success of `resolve_all_types` resolves everything -/

/-- C6: on any graph with no `RESOLVING` symbol (true of every graph the
build phase can produce), whenever `resolve_all_types` returns success
every symbol of the resulting graph is in state `RESOLVED` — none remains
`UNRESOLVED` (by the final check) or `RESOLVING` (resolution preserves the
empty `RESOLVING` set). -/
theorem C6_success_all_resolved (st : SymbolTable)
    (hnr : noResolvingB st = true)
    (h : (resolve_all_types st).1 = true) :
    ∀ (i : Nat) (n : String) (s : Symbol),
      getSymbol (resolve_all_types st).2 i n = some s →
      s.resolution_state = .RESOLVED := by
  intro i n s hs
  have hU : s.resolution_state ≠ .UNRESOLVED :=
    noUnresolvedB_getSymbol _ (resolve_all_types_true_noUnresolved st h) i n s hs
  have hR : ¬ ResolvingAt (resolve_all_types st).2 i n := by
    rw [resolve_all_types_resolvingAt]
    exact noResolvingB_not_resolvingAt st hnr i n
  cases hstate : s.resolution_state
  · exact absurd hstate hU
  · exact absurd ⟨s, hs, hstate⟩ hR
  · rfl

/-- C6 witness: `var x = 5;` resolves successfully and the symbol `x` ends
`RESOLVED`, through the theorem. -/
theorem C6_success_all_resolved_witness :
    (resolve_all_types tLit).1 = true ∧
    stateAt (resolve_all_types tLit).2 0 "x" = some .RESOLVED := by
  refine ⟨by decide, ?_⟩
  have hh := C6_success_all_resolved tLit (by decide) (by decide)
  have hsome : (getSymbol (resolve_all_types tLit).2 0 "x").isSome = true := by
    decide
  cases hg : getSymbol (resolve_all_types tLit).2 0 "x" with
  | none => rw [hg] at hsome; cases hsome
  | some s =>
    unfold stateAt
    rw [hg]
    show some s.resolution_state = some TypeResolutionState.RESOLVED
    rw [hh 0 "x" s hg]

/-! ## Claim C9 — idempotence of a successful `resolve_all_types` -/

theorem resolvePass_of_noUnresolved (st : SymbolTable)
    (h : noUnresolvedB st = true) : resolvePass st = (false, st) := by
  unfold resolvePass
  generalize symbolKeys st = keys
  induction keys with
  | nil => rfl
  | cons k rest ih =>
    rw [List.foldl_cons]
    have hstep : resolvePassStep (false, st) k = (false, st) := by
      cases hg : getSymbol st k.1 k.2 with
      | none => simp only [resolvePassStep, hg]
      | some sym =>
        simp only [resolvePassStep, hg]
        rw [if_neg (noUnresolvedB_getSymbol st h k.1 k.2 sym hg)]
    rw [hstep]
    exact ih

/-- C9: if `resolve_all_types` returns success, an immediate second call
also returns success and leaves the whole graph — in particular every
symbol's state, `data_type` and `type_name` — exactly as it was. -/
theorem C9_idempotent (st st₁ : SymbolTable)
    (h : resolve_all_types st = (true, st₁)) :
    resolve_all_types st₁ = (true, st₁) := by
  have h1 : (resolve_all_types st).1 = true := by rw [h]
  have h2 : (resolve_all_types st).2 = st₁ := by rw [h]
  have hno : noUnresolvedB st₁ = true := by
    have hh := resolve_all_types_true_noUnresolved st h1
    rw [h2] at hh
    exact hh
  have hpass : resolvePass st₁ = (false, st₁) := resolvePass_of_noUnresolved st₁ hno
  have hloop : resolveLoop 10 st₁ = (1, st₁) := by
    rw [show (10 : Nat) = Nat.succ 9 from rfl]
    unfold resolveLoop
    rw [hpass]
  unfold resolve_all_types
  rw [hloop, finalReport_eq]
  rw [if_neg (by omega : ¬ (10 ≤ 1))]
  rw [hno]

/-- C9 witness: the successfully resolved `var x = 5;` graph, through the
theorem. -/
theorem C9_idempotent_witness :
    resolve_all_types (resolve_all_types tLit).2 =
      (true, (resolve_all_types tLit).2) := by
  have h1 : (resolve_all_types tLit).1 = true := by decide
  have h2 : resolve_all_types tLit =
      ((resolve_all_types tLit).1, (resolve_all_types tLit).2) := rfl
  rw [h1] at h2
  exact C9_idempotent tLit (resolve_all_types tLit).2 h2

/-! ## Claim C5 — re-entering a `RESOLVING` symbol fails without change -/

/-- C5: resolving a symbol already in state `RESOLVING` returns failure and
leaves the whole graph (in particular that symbol's state) untouched; and
on the concrete cyclic program `var a = b; var b = a;` the full
`resolve_all_types` fails with both symbols remaining `UNRESOLVED`. -/
theorem C5_resolving_fails :
    (∀ (fuel : Nat) (st : SymbolTable) (name : String) (sid : Nat) (sym : Symbol),
      findSymbolScan st name = some (sid, sym) →
      sym.resolution_state = .RESOLVING →
      resolve_symbol_type fuel st name = (false, st)) ∧
    ((resolve_all_types tCyc).1 = false ∧
      stateAt (resolve_all_types tCyc).2 0 "a" = some .UNRESOLVED ∧
      stateAt (resolve_all_types tCyc).2 0 "b" = some .UNRESOLVED) := by
  constructor
  · intro fuel st name sid sym hscan hres
    cases fuel with
    | zero => rfl
    | succ fuel =>
      rw [resolve_succ_found fuel st name sid sym hscan]
      unfold resolveFound
      rw [if_neg (by simp [hres]), if_pos hres]
  · exact ⟨by decide, by decide, by decide⟩

/-- C5 witness: a mid-resolution graph whose symbol `a` is marked
`RESOLVING`, through the theorem. -/
theorem C5_resolving_fails_witness :
    resolve_symbol_type 3 tMidCyc "a" = (false, tMidCyc) := by
  exact C5_resolving_fails.1 3 tMidCyc "a" 0
    { name := "a", type := .VARIABLE, data_type := .i32,
      type_name := "unresolved", declaring_scope_id := 0,
      resolution_state := .RESOLVING,
      init_expr := some (.identifier "b"), dependencies := ["b"] }
    rfl rfl

/-! ## Claim C10 — null-initializer symbols never resolve -/

/-- C10: a symbol declared through `declare_unresolved_symbol` with a null
initializer is created `UNRESOLVED` with an empty dependency list; every
`resolve_symbol_type` call that locates it returns failure and leaves it
`UNRESOLVED`; and on any graph (with no `RESOLVING` symbol) holding such a
symbol, `resolve_all_types` returns failure. -/
theorem C10_null_init :
    (∀ (st : SymbolTable) (name : String) (ty : SymbolType),
      (lookup_symbol_current_scope st name).isSome = false →
      st.building_scope_level < st.all_scopes.length →
      getSymbol (declare_unresolved_symbol st name ty none).2
          st.building_scope_level name =
        some { name := name, type := ty, data_type := .i32,
               type_name := "unresolved",
               declaring_scope_id := Int.ofNat st.building_scope_level,
               resolution_state := .UNRESOLVED, init_expr := none,
               dependencies := [] }) ∧
    (∀ (fuel : Nat) (st : SymbolTable) (name : String) (sid : Nat) (sym : Symbol),
      findSymbolScan st name = some (sid, sym) →
      sym.init_expr = none → sym.dependencies = [] →
      sym.resolution_state = .UNRESOLVED →
      (resolve_symbol_type fuel st name).1 = false ∧
      stateAt (resolve_symbol_type fuel st name).2 sid name =
        some .UNRESOLVED) ∧
    (∀ (st : SymbolTable) (i : Nat) (n : String) (s : Symbol),
      noResolvingB st = true →
      getSymbol st i n = some s → s.init_expr = none →
      s.resolution_state = .UNRESOLVED →
      (resolve_all_types st).1 = false) := by
  refine ⟨?_, ?_, ?_⟩
  · intro st name ty hnone hlt
    have hex : symbol_exists_current_scope st name = false := hnone
    simp only [declare_unresolved_symbol, hex, Bool.false_eq_true, if_false]
    unfold insertSymbol getSymbol getScope
    rw [listGet?_listModifyIdx_self]
    cases hg : st.all_scopes.get? st.building_scope_level with
    | none => exact absurd (List.get?_eq_none.mp hg) (Nat.not_le_of_lt hlt)
    | some sc => simp [alistFind_alistInsert_self]
  · intro fuel st name sid sym hscan hinit hdeps hU
    have hsym : getSymbol st sid name = some sym :=
      findSymbolScan_getSymbol st name sid sym hscan
    cases fuel with
    | zero =>
      rw [resolve_zero_eq]
      refine ⟨rfl, ?_⟩
      unfold stateAt
      rw [hsym]
      simp [hU]
    | succ fuel =>
      rw [resolve_succ_found fuel st name sid sym hscan]
      unfold resolveFound
      rw [if_neg (by simp [hU]), if_neg (by simp [hU]), hdeps,
        resolveDeps_nil, resolveAfterDeps_true,
        finishResolve_none _ _ _ _ hinit]
      refine ⟨rfl, ?_⟩
      unfold stateAt
      rw [getSymbol_updateSymbol_self, getSymbol_updateSymbol_self, hsym]
      rfl
  · intro st i n s hnr hs hsi hsu
    have hstuck : NullInitStuck (resolveLoop 10 st).2 i n := by
      refine resolveLoop_pred_mono (fun t => NullInitStuck t i n)
        (fun st0 => foldl_pass_mono (fun t => NullInitStuck t i n)
          (fun fuel st1 nm => resolve_nullInitStuck fuel st1 nm i n)
          (symbolKeys st0) (false, st0)) 10 st
        ⟨s, hs, hsi, by rw [hsu]; intro hh; cases hh⟩
    have hnotres : ¬ ResolvingAt (resolveLoop 10 st).2 i n := by
      intro hr
      refine noResolvingB_not_resolvingAt st hnr i n ?_
      have hiff := resolveLoop_pred_iff (fun t => ResolvingAt t i n)
        (fun st0 => foldl_pass_iff (fun t => ResolvingAt t i n)
          (fun fuel st1 nm => resolve_resolvingAt fuel st1 nm i n)
          (symbolKeys st0) (false, st0)) 10 st
      exact hiff.mp hr
    obtain ⟨s', hs', hsi', hsr'⟩ := hstuck
    have hU' : s'.resolution_state = .UNRESOLVED := by
      cases hst : s'.resolution_state
      · rfl
      · exact absurd ⟨s', hs', hst⟩ hnotres
      · exact absurd hst hsr'
    have hfalse : noUnresolvedB (resolveLoop 10 st).2 = false :=
      noUnresolvedB_false_of_getSymbol _ i n s' hs' hU'
    unfold resolve_all_types
    cases hr : resolveLoop 10 st with
    | mk it st' =>
      rw [hr] at hfalse
      rw [finalReport_eq]
      by_cases h10 : 10 ≤ it
      · rw [if_pos h10]
      · rw [if_neg h10]
        exact hfalse

/-- C10 witness: the null-initializer symbol `x` makes the full resolution
fail, through the theorem. -/
theorem C10_null_init_witness : (resolve_all_types tNull).1 = false := by
  exact C10_null_init.2.2 tNull 0 "x"
    { name := "x", type := .VARIABLE, data_type := .i32,
      type_name := "unresolved", declaring_scope_id := 0,
      resolution_state := .UNRESOLVED, init_expr := none, dependencies := [] }
    (by decide) rfl rfl rfl

/-! ## Claim C1 — how dependencies are located during resolution -/

/-- C1 counterexample: `X` (declared in scope 2 = `B`) has the single
dependency `d`.  `lookup_in_context("d", 2)` — the symbol the claim says the
dependency is resolved as — finds the already-`RESOLVED` `i32` symbol in
`B`, and the initializer of `X` infers to `"i32"` in that context, so under
the claim resolution of `X` must succeed.  The code instead locates `d` by
scanning all scopes in id order, reaching the unresolvable `d` of the
sibling scope 1 = `A` first: `resolve_symbol_type("X")` fails and `X` is
reset to `UNRESOLVED`. -/
theorem C1_counterexample :
    (getSymbol tCtx 2 "X").map (fun s => (s.dependencies, s.declaring_scope_id)) =
      some (["d"], 2) ∧
    (lookup_symbol_in_context tCtx "d" 2).map
      (fun s => (s.resolution_state, s.type_name)) = some (.RESOLVED, "i32") ∧
    infer_type_from_expression_in_context tCtx (.identifier "d") 2 = "i32" ∧
    (findSymbolScan tCtx "d").map (fun p => (p.1, p.2.resolution_state)) =
      some (1, .UNRESOLVED) ∧
    (resolve_symbol_type (totalFuel tCtx) tCtx "X").1 = false ∧
    stateAt (resolve_symbol_type (totalFuel tCtx) tCtx "X").2 2 "X" =
      some .UNRESOLVED := by
  exact ⟨by decide, by decide, rfl, by decide, by decide, by decide⟩

/-- C1 amended: during resolution of an unresolved symbol `X`, each
dependency `dep` is passed to `resolve_symbol_type_in_context`, which
ignores the declaring-scope context entirely and calls
`resolve_symbol_type(dep)` — the symbol acted on is the first one named
`dep` in scope-id order over all scopes, not the one
`lookup_in_context(dep, X.declaring_scope_id)` finds; if resolving any
dependency fails, `X` is set back to `UNRESOLVED` and resolution of `X`
returns failure. -/
theorem C1_amended_deps :
    (∀ (recur : SymbolTable → String → Bool × SymbolTable) (st : SymbolTable)
        (name : String) (ctx ctx' : Int),
      resolve_symbol_type_in_context recur st name ctx =
        resolve_symbol_type_in_context recur st name ctx' ∧
      resolve_symbol_type_in_context recur st name ctx = recur st name) ∧
    (∀ (fuel : Nat) (st : SymbolTable) (name : String) (sid : Nat) (sym : Symbol),
      findSymbolScan st name = some (sid, sym) →
      sym.resolution_state = .UNRESOLVED →
      (resolveDeps (resolve_symbol_type fuel) (Int.ofNat sid)
        (updateSymbol st sid name (setState .RESOLVING)) sym.dependencies).1 =
        false →
      (resolve_symbol_type (Nat.succ fuel) st name).1 = false ∧
      stateAt (resolve_symbol_type (Nat.succ fuel) st name).2 sid name =
        some .UNRESOLVED) := by
  constructor
  · exact fun recur st name ctx ctx' => ⟨rfl, rfl⟩
  · intro fuel st name sid sym hscan hU hdeps
    have hsym : getSymbol st sid name = some sym :=
      findSymbolScan_getSymbol st name sid sym hscan
    rw [resolve_succ_found fuel st name sid sym hscan]
    unfold resolveFound
    rw [if_neg (by simp [hU]), if_neg (by simp [hU])]
    cases hr : resolveDeps (resolve_symbol_type fuel) (Int.ofNat sid)
      (updateSymbol st sid name (setState .RESOLVING)) sym.dependencies with
    | mk b st2 =>
      rw [hr] at hdeps
      cases b
      · refine ⟨rfl, ?_⟩
        have hres1 : ResolvingAt
            (updateSymbol st sid name (setState .RESOLVING)) sid name := by
          refine ⟨setState .RESOLVING sym, ?_, rfl⟩
          rw [getSymbol_updateSymbol_self, hsym]
          rfl
        have hres2 : ResolvingAt st2 sid name := by
          have hh := resolveDeps_pred_iff (fun t => ResolvingAt t sid name) _
            (Int.ofNat sid)
            (fun st' n' => resolve_resolvingAt fuel st' n' sid name)
            sym.dependencies (updateSymbol st sid name (setState .RESOLVING))
          rw [hr] at hh
          exact hh.mpr hres1
        obtain ⟨s2, hs2, -⟩ := hres2
        rw [resolveAfterDeps_false]
        unfold stateAt
        rw [getSymbol_updateSymbol_self, hs2]
        rfl
      · simp at hdeps

/-- C1 amended witness: the two-scope table of the counterexample, through
the theorem. -/
theorem C1_amended_deps_witness :
    (resolve_symbol_type (Nat.succ 3) tCtx "X").1 = false ∧
    stateAt (resolve_symbol_type (Nat.succ 3) tCtx "X").2 2 "X" =
      some .UNRESOLVED := by
  exact C1_amended_deps.2 3 tCtx "X" 2
    { name := "X", type := .VARIABLE, data_type := .i32,
      type_name := "unresolved", declaring_scope_id := 2,
      resolution_state := .UNRESOLVED,
      init_expr := some (.identifier "d"), dependencies := ["d"] }
    rfl rfl (by decide)

end Mycelium
